import Mathlib

/-!
Verification development for the television/TIA timing core of Gopher2600.

The embedding below follows the Go sources:
* `Ref`  — the reference television implementation (`reference`, type `state`,
  `Signal`, `newFrame`, `SetSpec`, `Snapshot`, `RestoreSnapshot`, `Reset`,
  `IsStable`, `GetState`).
* `Headless` — the minimal `HeadlessTV.RequestTVState` dispatch.
* `Tia`  — the TIA chip `StepVideoCycle` together with its clock, forced
  resync and horizontal-move sub-units.

Mutable Go state becomes explicit state passing.  The signal-history buffer
is a Go slice backed by a heap-allocated array; to make aliasing statements
about `Snapshot` expressible, arrays live in an explicit heap (a list of
arrays addressed by index) and the state holds a slice value (array id plus
logical length).  Collaborator callbacks (renderers, mixers, frame triggers,
refreshers) are modelled as an emitted event trace; the resizer and the
frame-rate limiter are not part of the provided sources and, per the spec,
mutate none of the state the claims mention, so they are modelled as inert.
-/

set_option maxHeartbeats 4000000
set_option maxRecDepth 10000

namespace Ref

/-- Television specification identifier (NTSC or PAL). -/
inductive SpecID where
  | NTSC
  | PAL
deriving DecidableEq

/-- Modelled from the spec: the immutable per-standard constant set
("Specification"), of which the claims use the identifier, the total
scanline count and the ideal top/bottom visible scanlines.  The concrete
specification table is not among the provided sources. -/
structure Spec where
  id : SpecID
  scanlinesTotal : Int
  scanlineTop : Int
  scanlineBottom : Int
deriving DecidableEq

/-- Modelled from the spec: the NTSC specification — 262 total scanlines
(spec §8 concrete scenario), ideal visible window below vsync+vblank and
above overscan. -/
def SpecNTSC : Spec := { id := .NTSC, scanlinesTotal := 262, scanlineTop := 40, scanlineBottom := 232 }

/-- Modelled from the spec: the PAL specification (312 total scanlines, the
other supported standard). -/
def SpecPAL : Spec := { id := .PAL, scanlinesTotal := 312, scanlineTop := 48, scanlineBottom := 302 }

/-- Modelled from the spec: clocks per scanline (228, spec §8 concrete
scenario). -/
def HorizClksScanline : Int := 228

/-- Modelled from the spec: clocks per horizontal blank (68; horizontal
positions are reported counted from -68). -/
def HorizClksHBlank : Int := 68

/-- The number of additional lines over the NTSC spec that is allowed before
the TV flips to the PAL specification (source constant, value 40). -/
def excessScanlinesNTSC : Int := 40

/-- The number of synced frames where we can expect things to be in flux
(source constant, value 5). -/
def leadingFrames : Nat := 5

/-- The number of synced frames required before the tv frame is considered
"stable" (source constant, value 20). -/
def stabilityThreshold : Nat := 20

/-- Modelled from the spec: each standard decodes a color index through its
fixed palette to an RGB triple.  The concrete palette tables are not among
the provided sources; an injective per-standard encoding stands in for them
(no claim depends on particular RGB values). -/
def Spec.getColor (s : Spec) (p : Nat) : Nat × Nat × Nat :=
  match s.id with
  | .NTSC => (p, p, 0)
  | .PAL => (p, p, 1)

/-- The signal attributes sent from the TIA to the reference television
(fields used by `reference.Signal`). -/
structure SignalAttributes where
  vsync : Bool := false
  vblank : Bool := false
  cburst : Bool := false
  hsync : Bool := false
  pixel : Nat := 0
  audioUpdate : Bool := false
  audioData : Nat := 0
deriving DecidableEq

/-- One recorded entry of the per-frame signal history. -/
structure SignalHistoryEntry where
  x : Int := 0
  y : Int := 0
  sig : SignalAttributes := {}
deriving DecidableEq

/-- A Go slice value for the signal history: backing array id in the heap
plus logical length.  By construction every operation keeps the backing
array's length equal to `len`. -/
structure Slice where
  arr : Nat := 0
  len : Nat := 0
deriving DecidableEq

/-- The television state (`type state struct` of the source). -/
structure State where
  spec : Spec := SpecNTSC
  auto : Bool := false
  horizPos : Int := 0
  frameNum : Nat := 0
  scanline : Int := 0
  syncedFrameNum : Nat := 0
  syncedFrame : Bool := false
  lastSignal : SignalAttributes := {}
  vsyncCount : Nat := 0
  top : Int := 0
  bottom : Int := 0
  signalHistory : Slice := {}
  signalHistoryIdx : Nat := 0
deriving DecidableEq

/-- The reference television (`type reference struct`): requested spec id,
the heap of history arrays, and the state.  Renderer/mixer/trigger/refresher
registries are modelled by the event trace the operations emit. -/
structure TV where
  reqSpecID : String := ""
  heap : List (List SignalHistoryEntry) := []
  state : State := {}

/-- Read an array from the heap (out-of-range reads yield the empty array;
well-formed states never perform them). -/
def heapGet (h : List (List SignalHistoryEntry)) (i : Nat) : List SignalHistoryEntry :=
  h.getD i []

/-- Write an array back to the heap. -/
def heapSet (h : List (List SignalHistoryEntry)) (i : Nat) (a : List SignalHistoryEntry) :
    List (List SignalHistoryEntry) :=
  h.set i a

/-- One collaborator callback, as dispatched by the television to every
registered renderer / mixer / frame trigger / refresher. -/
inductive Event where
  | setAudio (d : Nat)
  | resize (id : SpecID) (top visible : Int)
  | setPixel (x y : Int) (r g b : Nat) (vblank : Bool)
  | newScanline (sl : Int)
  | newFrame (fr : Nat) (stable : Bool)
  | refresh (begin : Bool)
  | refreshPixel (x y : Int) (r g b : Nat) (vblank notYet : Bool)
deriving DecidableEq

/-- `IsStable`: true once the synced frame count reaches the stability
threshold. -/
def isStable (tv : TV) : Bool :=
  stabilityThreshold ≤ tv.state.syncedFrameNum

/-- Common tail of `SetSpec` once the specification has been recognised:
record spec and auto flag, set top/bottom to the spec's ideals, notify
renderers of the resize, and allocate the signal history for a screen within
the limits of the specification.  (`resizer.prepare` is inert here, see the
module comment.) -/
def setSpecWith (tv : TV) (sp : Spec) (auto : Bool) : TV × List Event :=
  let s0 := tv.state
  let s1 := { s0 with spec := sp, auto := auto, top := sp.scanlineTop, bottom := sp.scanlineBottom }
  let n : Nat := (HorizClksScanline * (s1.bottom - s1.top)).toNat
  let arr : Nat := tv.heap.length
  ({ tv with
      heap := tv.heap ++ [List.replicate n {}],
      state := { s1 with signalHistory := { arr := arr, len := n }, signalHistoryIdx := 0 } },
   [Event.resize sp.id s1.top (s1.bottom - s1.top)])

/-- ASCII upper-casing of a character (`strings.ToUpper` on the
specification identifiers only involves ASCII). -/
def upperChar (c : Char) : Char :=
  if 'a' ≤ c ∧ c ≤ 'z' then Char.ofNat (c.toNat - 32) else c

/-- ASCII upper-casing of a string (`strings.ToUpper`). -/
def upperStr (s : String) : String :=
  ⟨s.data.map upperChar⟩

/-- `SetSpec`: dispatch on the upper-cased requested specification; an
unrecognised identifier is a recoverable error and leaves the television
unchanged. -/
def setSpec (tv : TV) (spec : String) : TV × List Event × Option String :=
  let u := upperStr spec
  if u = "NTSC" then
    let r := setSpecWith tv SpecNTSC false
    (r.1, r.2, none)
  else if u = "PAL" then
    let r := setSpecWith tv SpecPAL false
    (r.1, r.2, none)
  else if u = "AUTO" then
    let r := setSpecWith tv SpecNTSC true
    (r.1, r.2, none)
  else (tv, [], some ("television: unsupported spec (" ++ spec ++ ")"))

/-- `newFrame`: bump the synced frame count if the previous frame was
synced, possibly flip the specification from NTSC to PAL, then prepare the
next frame, notify the frame triggers and reset the history cursor.
(`resizer.commit` / `resizer.prepare` are inert here.) -/
def newFrame (tv : TV) (synced : Bool) : TV × List Event :=
  let s0 := tv.state
  let s1 := if s0.syncedFrame then { s0 with syncedFrameNum := s0.syncedFrameNum + 1 } else s0
  let tv1 := { tv with state := s1 }
  let r2 :=
    if leadingFrames < s1.syncedFrameNum ∧ s1.syncedFrameNum < stabilityThreshold then
      if s1.auto = true ∧ s1.syncedFrame = false ∧ excessScanlinesNTSC < s1.scanline then
        if s1.spec.id = SpecNTSC.id then
          let r := setSpec tv1 "PAL"
          (r.1, r.2.1)
        else (tv1, ([] : List Event))
      else (tv1, ([] : List Event))
    else (tv1, ([] : List Event))
  let s2 := r2.1.state
  let s3 := { s2 with frameNum := s2.frameNum + 1, scanline := 0, syncedFrame := synced }
  let tv3 := { r2.1 with state := s3 }
  let ev3 := [Event.newFrame s3.frameNum (isStable tv3)]
  ({ tv3 with state := { s3 with signalHistoryIdx := 0 } }, r2.2 ++ ev3)

/-- `newScanline`: notify renderers of the new scanline. -/
def newScanline (tv : TV) : TV × List Event :=
  (tv, [Event.newScanline tv.state.scanline])

/-- Audio mixing at the top of `Signal`. -/
def signalAudioEv (sig : SignalAttributes) : List Event :=
  if sig.audioUpdate then [Event.setAudio sig.audioData] else []

/-- The horizontal-count part of `Signal`: a signal is a new color clock, so
bump the horizontal position; at the end of the scanline reset it, bump the
scanline counter and either fly back naturally (past the end of screen) or
notify a new scanline.  (The per-scanline `lmtr.checkRate` is inert.) -/
def signalHoriz (tv : TV) : TV × List Event :=
  let s0 := { tv.state with horizPos := tv.state.horizPos + 1 }
  if HorizClksScanline ≤ s0.horizPos then
    let s1 := { s0 with horizPos := 0, scanline := s0.scanline + 1 }
    let tv1 := { tv with state := s1 }
    if s1.spec.scanlinesTotal < s1.scanline then
      newFrame tv1 false
    else
      newScanline tv1
  else
    ({ tv with state := s0 }, [])

/-- The VSYNC edge-detection part of `Signal`. -/
def signalVSync (tv : TV) (sig : SignalAttributes) : TV × List Event :=
  if sig.vsync = true ∧ tv.state.lastSignal.vsync = false then
    ({ tv with state := { tv.state with vsyncCount := 0 } }, [])
  else if sig.vsync = false ∧ tv.state.lastSignal.vsync = true then
    if 0 < tv.state.vsyncCount then newFrame tv true else (tv, [])
  else (tv, [])

/-- The HSYNC edge-detection part of `Signal`: the rising edge forces the
horizontal position to the front of the sync pulse and counts vsync lines,
the falling edge forces it to the back of the sync pulse. -/
def signalHSync (tv : TV) (sig : SignalAttributes) : TV :=
  let tv1 :=
    if sig.hsync = true ∧ tv.state.lastSignal.hsync = false then
      let s1 := { tv.state with horizPos := 16 }
      let s2 :=
        if sig.vsync = true ∨ tv.state.lastSignal.vsync = true then
          { s1 with vsyncCount := s1.vsyncCount + 1 }
        else s1
      { tv with state := s2 }
    else tv
  if sig.hsync = false ∧ tv1.state.lastSignal.hsync = true then
    { tv1 with state := { tv1.state with horizPos := 36 } }
  else tv1

/-- The pixel-rendering part of `Signal`: decode the color and send the
pixel to every renderer. -/
def signalRenderEv (tv : TV) (sig : SignalAttributes) : List Event :=
  let c := tv.state.spec.getColor sig.pixel
  [Event.setPixel tv.state.horizPos tv.state.scanline c.1 c.2.1 c.2.2 sig.vblank]

/-- The record-keeping tail of `Signal`: remember the signal and write it
into the per-frame history (overwriting in place within the allocated
buffer, appending — which reallocates the backing array — past it). -/
def signalHistory (tv : TV) (sig : SignalAttributes) : TV :=
  let s0 := { tv.state with lastSignal := sig }
  let e : SignalHistoryEntry := { x := s0.horizPos, y := s0.scanline, sig := sig }
  let sl := s0.signalHistory
  let r :=
    if sl.len ≤ s0.signalHistoryIdx then
      ((tv.heap ++ [(heapGet tv.heap sl.arr).take sl.len ++ [e]]),
       ({ arr := tv.heap.length, len := sl.len + 1 } : Slice))
    else
      (heapSet tv.heap sl.arr ((heapGet tv.heap sl.arr).set s0.signalHistoryIdx e), sl)
  { tv with
      heap := r.1,
      state := { s0 with signalHistory := r.2, signalHistoryIdx := s0.signalHistoryIdx + 1 } }

/-- `Signal`: one color clock of input to the reference television, in the
order of the source: audio, horizontal count and flyback, VSYNC edges,
HSYNC edges, pixel rendering, record keeping. -/
def signal (tv : TV) (sig : SignalAttributes) : TV × List Event :=
  let ev0 := signalAudioEv sig
  let r1 := signalHoriz tv
  let r2 := signalVSync r1.1 sig
  let tv3 := signalHSync r2.1 sig
  let ev3 := signalRenderEv tv3 sig
  (signalHistory tv3 sig, ev0 ++ r1.2 ++ r2.2 ++ ev3)

/-- `Snapshot`: a copy of the state whose signal history is backed by a
freshly allocated array holding a copy of the live contents. -/
def snapshot (tv : TV) : State × TV :=
  let n := tv.state
  let copyArr := heapGet tv.heap n.signalHistory.arr
  (({ n with signalHistory := { arr := tv.heap.length, len := n.signalHistory.len } }),
   { tv with heap := tv.heap ++ [copyArr] })

/-- `RestoreSnapshot`: a nil snapshot is ignored; otherwise the state is
replaced wholesale and the recorded history is replayed through the
refreshers, flagging entries at or beyond the restored write cursor. -/
def restoreSnapshot (tv : TV) (s : Option State) : TV × List Event :=
  match s with
  | none => (tv, [])
  | some st =>
    let tv1 := { tv with state := st }
    let buf := heapGet tv1.heap st.signalHistory.arr
    let evs := buf.enum.map fun p =>
      let c := st.spec.getColor p.2.sig.pixel
      Event.refreshPixel p.2.x p.2.y c.1 c.2.1 c.2.2 p.2.sig.vblank
        (st.signalHistoryIdx ≤ p.1)
    (tv1, [Event.refresh true] ++ evs ++ [Event.refresh false])

/-- `Reset`: reapply the originally requested specification and zero the
counters (the synced-frame flag is not touched by the source). -/
def reset (tv : TV) : TV × List Event × Option String :=
  let r := setSpec tv tv.reqSpecID
  match r.2.2 with
  | some e => (r.1, r.2.1, some e)
  | none =>
    ({ r.1 with state := { r.1.state with
        horizPos := 0, frameNum := 0, scanline := 0,
        syncedFrameNum := 0, vsyncCount := 0, lastSignal := {} } },
     r.2.1, none)

/-- `NewReference`: a fresh television with the requested specification
applied; an unrecognised specification is an error and no television is
produced. -/
def newReference (spec : String) : Except String TV :=
  let tv : TV := { reqSpecID := upperStr spec, heap := [], state := {} }
  let r := setSpec tv spec
  match r.2.2 with
  | some e => .error e
  | none => .ok r.1

/-- `GetState` request identifiers (`ReqFramenum`, `ReqScanline`,
`ReqHorizPos` in declaration order). -/
def ReqFramenum : Nat := 0

/-- `ReqScanline` request identifier. -/
def ReqScanline : Nat := 1

/-- `ReqHorizPos` request identifier. -/
def ReqHorizPos : Nat := 2

/-- `GetState`: read one derived coordinate; an unhandled request kind is a
recoverable error (the television is not touched). -/
def getState (tv : TV) (request : Nat) : Int × Option String :=
  match request with
  | 0 => ((tv.state.frameNum : Int), none)
  | 1 => (tv.state.scanline, none)
  | 2 => (tv.state.horizPos - HorizClksHBlank, none)
  | _ => (0, some "television: unhandled tv state request")

/-- Run a sequence of `Signal` calls. -/
def run (tv : TV) (sigs : List SignalAttributes) : TV :=
  sigs.foldl (fun t σ => (signal t σ).1) tv

/-- Run a sequence of `Signal` calls, collecting the emitted trace. -/
def runTrace (tv : TV) (sigs : List SignalAttributes) : TV × List Event :=
  sigs.foldl (fun p σ =>
    let r := signal p.1 σ
    (r.1, p.2 ++ r.2)) (tv, [])

end Ref

namespace Ref

theorem upperStr_pal : upperStr "PAL" = "PAL" := by decide

theorem upperStr_ntsc : upperStr "NTSC" = "NTSC" := by decide

theorem upperStr_auto : upperStr "AUTO" = "AUTO" := by decide

theorem setSpec_pal (tv : TV) :
    setSpec tv "PAL" = ((setSpecWith tv SpecPAL false).1, (setSpecWith tv SpecPAL false).2, none) := by
  simp [setSpec, upperStr_pal]

theorem newFrame_state (tv : TV) (b : Bool) :
    ((newFrame tv b).1.state.scanline = 0 ∧
     (newFrame tv b).1.state.syncedFrame = b ∧
     (newFrame tv b).1.state.frameNum = tv.state.frameNum + 1 ∧
     (newFrame tv b).1.state.horizPos = tv.state.horizPos ∧
     (newFrame tv b).1.state.vsyncCount = tv.state.vsyncCount ∧
     (newFrame tv b).1.state.lastSignal = tv.state.lastSignal ∧
     (newFrame tv b).1.state.signalHistoryIdx = 0) ∧
    ((newFrame tv b).1.state.spec = tv.state.spec ∨ (newFrame tv b).1.state.spec = SpecPAL) ∧
    ((newFrame tv b).1.state.syncedFrameNum = tv.state.syncedFrameNum ∨
     (newFrame tv b).1.state.syncedFrameNum = tv.state.syncedFrameNum + 1) := by
  unfold newFrame
  dsimp only
  split_ifs <;> simp [setSpec_pal, setSpecWith]

/-- The C1 state invariant: horizontal position within [0, clocksPerScanline),
scanline within [0, scanlinesTotal] (plus nonnegativity of the total, needed
to keep the invariant inductive through specification switches). -/
def Inv (tv : TV) : Prop :=
  0 ≤ tv.state.horizPos ∧ tv.state.horizPos < HorizClksScanline ∧
  0 ≤ tv.state.scanline ∧ tv.state.scanline ≤ tv.state.spec.scanlinesTotal ∧
  0 ≤ tv.state.spec.scanlinesTotal

theorem newFrame_inv (tv : TV) (b : Bool) (h : 0 ≤ tv.state.horizPos)
    (h2 : tv.state.horizPos < HorizClksScanline)
    (h3 : 0 ≤ tv.state.spec.scanlinesTotal) : Inv (newFrame tv b).1 := by
  obtain ⟨⟨hsl, -, -, hhp, -, -, -⟩, hspec, -⟩ := newFrame_state tv b
  rcases hspec with hspec | hspec <;>
    simp only [Inv, hsl, hhp, hspec] <;>
    refine ⟨h, h2, le_refl 0, ?_, ?_⟩ <;>
    first
      | exact h3
      | decide

theorem signalHoriz_inv (tv : TV) (h : Inv tv) : Inv (signalHoriz tv).1 := by
  obtain ⟨h1, h2, h3, h4, h5⟩ := h
  unfold signalHoriz
  dsimp only
  split_ifs with hw hn
  · exact newFrame_inv _ _ (by dsimp only; omega) (by dsimp only; decide) (by dsimp only; exact h5)
  · simp only [Inv, newScanline]
    refine ⟨by omega, by decide, by omega, by omega, h5⟩
  · simp only [Inv]
    simp only [HorizClksScanline] at *
    refine ⟨by omega, by omega, h3, h4, h5⟩

theorem signalVSync_inv (tv : TV) (σ : SignalAttributes) (h : Inv tv) :
    Inv (signalVSync tv σ).1 := by
  obtain ⟨h1, h2, h3, h4, h5⟩ := h
  unfold signalVSync
  dsimp only
  split_ifs
  · exact ⟨h1, h2, h3, h4, h5⟩
  · exact newFrame_inv _ _ h1 h2 h5
  · exact ⟨h1, h2, h3, h4, h5⟩
  · exact ⟨h1, h2, h3, h4, h5⟩

theorem signalHSync_inv (tv : TV) (σ : SignalAttributes) (h : Inv tv) :
    Inv (signalHSync tv σ) := by
  obtain ⟨h1, h2, h3, h4, h5⟩ := h
  unfold signalHSync
  dsimp only
  split_ifs <;>
    simp only [Inv] <;>
    refine ⟨?_, ?_, ?_, ?_, ?_⟩ <;>
    simp only [HorizClksScanline] at * <;>
    omega

theorem signalHistory_inv (tv : TV) (σ : SignalAttributes) (h : Inv tv) :
    Inv (signalHistory tv σ) := by
  obtain ⟨h1, h2, h3, h4, h5⟩ := h
  exact ⟨h1, h2, h3, h4, h5⟩

theorem signal_inv (tv : TV) (σ : SignalAttributes) (h : Inv tv) :
    Inv (signal tv σ).1 := by
  unfold signal
  dsimp only
  exact signalHistory_inv _ _ (signalHSync_inv _ _ (signalVSync_inv _ _ (signalHoriz_inv _ h)))

theorem run_inv (tv : TV) (sigs : List SignalAttributes) (h : Inv tv) : Inv (run tv sigs) := by
  induction sigs generalizing tv with
  | nil => exact h
  | cons σ rest ih => exact ih _ (signal_inv _ _ h)

theorem newReference_inv (s : String) (tv : TV) (h : newReference s = .ok tv) : Inv tv := by
  unfold newReference setSpec at h
  dsimp only at h
  split_ifs at h <;> simp only at h
  all_goals (cases h; refine ⟨?_, ?_, ?_, ?_, ?_⟩ <;> simp only [setSpecWith] <;> decide)

theorem reset_inv (tv tv1 : TV) (ev : List Event) (h : reset tv = (tv1, ev, none)) : Inv tv1 := by
  unfold reset setSpec at h
  dsimp only at h
  split_ifs at h <;>
    (injection h with h1 h23; injection h23 with h2 h3) <;>
    first
      | exact Option.noConfusion h3
      | (cases h1
         refine ⟨?_, ?_, ?_, ?_, ?_⟩ <;> dsimp only [setSpecWith] <;> decide)

/-- C1: for every sequence of Signal calls to the reference television
starting from the initial (NewReference) or reset state, after every call —
that is, after running any finite sequence of calls — the horizontal
position lies in [0, clocksPerScanline) and the scanline counter lies in
[0, scanlinesTotal]. -/
theorem C1_horiz_scanline_bounds :
    (∀ s tv0, newReference s = .ok tv0 → ∀ sigs,
      0 ≤ (run tv0 sigs).state.horizPos ∧
      (run tv0 sigs).state.horizPos < HorizClksScanline ∧
      0 ≤ (run tv0 sigs).state.scanline ∧
      (run tv0 sigs).state.scanline ≤ (run tv0 sigs).state.spec.scanlinesTotal) ∧
    (∀ tv tv1 ev, reset tv = (tv1, ev, none) → ∀ sigs,
      0 ≤ (run tv1 sigs).state.horizPos ∧
      (run tv1 sigs).state.horizPos < HorizClksScanline ∧
      0 ≤ (run tv1 sigs).state.scanline ∧
      (run tv1 sigs).state.scanline ≤ (run tv1 sigs).state.spec.scanlinesTotal) := by
  constructor
  · intro s tv0 h sigs
    obtain ⟨h1, h2, h3, h4, -⟩ := run_inv tv0 sigs (newReference_inv s tv0 h)
    exact ⟨h1, h2, h3, h4⟩
  · intro tv tv1 ev h sigs
    obtain ⟨h1, h2, h3, h4, -⟩ := run_inv tv1 sigs (reset_inv tv tv1 ev h)
    exact ⟨h1, h2, h3, h4⟩

/-- A concrete television produced by `NewReference("NTSC")`, used by the
witnesses. -/
def tvNTSC : TV :=
  match newReference "NTSC" with
  | .ok tv => tv
  | .error _ => {}

theorem C1_horiz_scanline_bounds_witness :
    (0 ≤ (run tvNTSC [{}]).state.horizPos ∧
     (run tvNTSC [{}]).state.horizPos < HorizClksScanline ∧
     0 ≤ (run tvNTSC [{}]).state.scanline ∧
     (run tvNTSC [{}]).state.scanline ≤ (run tvNTSC [{}]).state.spec.scanlinesTotal) ∧
    (0 ≤ (run (reset tvNTSC).1 [{}]).state.horizPos ∧
     (run (reset tvNTSC).1 [{}]).state.horizPos < HorizClksScanline ∧
     0 ≤ (run (reset tvNTSC).1 [{}]).state.scanline ∧
     (run (reset tvNTSC).1 [{}]).state.scanline ≤ (run (reset tvNTSC).1 [{}]).state.spec.scanlinesTotal) :=
  ⟨C1_horiz_scanline_bounds.1 "NTSC" tvNTSC rfl [{}],
   C1_horiz_scanline_bounds.2 tvNTSC (reset tvNTSC).1 (reset tvNTSC).2.1 rfl [{}]⟩

theorem signalHoriz_keep (tv : TV) :
    (signalHoriz tv).1.state.vsyncCount = tv.state.vsyncCount ∧
    (signalHoriz tv).1.state.lastSignal = tv.state.lastSignal := by
  unfold signalHoriz
  dsimp only
  split_ifs
  · obtain ⟨⟨-, -, -, -, hvc, hls, -⟩, -, -⟩ := newFrame_state _ false
    exact ⟨by simpa using hvc, by simpa using hls⟩
  · exact ⟨rfl, rfl⟩
  · exact ⟨rfl, rfl⟩

theorem signalHoriz_frameNum (tv : TV) :
    (HorizClksScanline ≤ tv.state.horizPos + 1 ∧ tv.state.spec.scanlinesTotal < tv.state.scanline + 1 →
      (signalHoriz tv).1.state.frameNum = tv.state.frameNum + 1) ∧
    (¬(HorizClksScanline ≤ tv.state.horizPos + 1 ∧ tv.state.spec.scanlinesTotal < tv.state.scanline + 1) →
      (signalHoriz tv).1.state.frameNum = tv.state.frameNum) := by
  unfold signalHoriz
  dsimp only
  split_ifs with h1 h2
  · obtain ⟨⟨-, -, hfr, -, -, -, -⟩, -, -⟩ := newFrame_state _ false
    constructor
    · intro h
      simpa using hfr
    · intro h
      exact absurd ⟨by simpa using h1, by simpa using h2⟩ h
  · constructor
    · intro h
      exact absurd (by simpa using h.2) h2
    · intro h
      rfl
  · constructor
    · intro h
      exact absurd (by simpa using h.1) h1
    · intro h
      rfl

theorem signalHSync_keep (tv : TV) (σ : SignalAttributes) :
    (signalHSync tv σ).state.scanline = tv.state.scanline ∧
    (signalHSync tv σ).state.frameNum = tv.state.frameNum ∧
    (signalHSync tv σ).state.syncedFrame = tv.state.syncedFrame ∧
    (signalHSync tv σ).state.syncedFrameNum = tv.state.syncedFrameNum ∧
    (signalHSync tv σ).state.lastSignal = tv.state.lastSignal ∧
    (signalHSync tv σ).state.signalHistoryIdx = tv.state.signalHistoryIdx ∧
    (signalHSync tv σ).state.spec = tv.state.spec := by
  unfold signalHSync
  dsimp only
  split_ifs <;> simp

theorem signalHistory_keep (tv : TV) (σ : SignalAttributes) :
    (signalHistory tv σ).state.horizPos = tv.state.horizPos ∧
    (signalHistory tv σ).state.scanline = tv.state.scanline ∧
    (signalHistory tv σ).state.frameNum = tv.state.frameNum ∧
    (signalHistory tv σ).state.syncedFrame = tv.state.syncedFrame ∧
    (signalHistory tv σ).state.syncedFrameNum = tv.state.syncedFrameNum ∧
    (signalHistory tv σ).state.vsyncCount = tv.state.vsyncCount ∧
    (signalHistory tv σ).state.spec = tv.state.spec ∧
    (signalHistory tv σ).state.signalHistoryIdx = tv.state.signalHistoryIdx + 1 ∧
    (signalHistory tv σ).state.lastSignal = σ := by
  unfold signalHistory
  dsimp only
  simp

theorem signalVSync_rising (tv : TV) (σ : SignalAttributes) (h1 : σ.vsync = true)
    (h2 : tv.state.lastSignal.vsync = false) :
    signalVSync tv σ = ({ tv with state := { tv.state with vsyncCount := 0 } }, []) := by
  unfold signalVSync
  rw [if_pos ⟨h1, h2⟩]

theorem signalVSync_falling_pos (tv : TV) (σ : SignalAttributes) (h1 : σ.vsync = false)
    (h2 : tv.state.lastSignal.vsync = true) (h3 : 0 < tv.state.vsyncCount) :
    signalVSync tv σ = newFrame tv true := by
  unfold signalVSync
  rw [if_neg (by simp [h1]), if_pos ⟨h1, h2⟩, if_pos h3]

theorem signalVSync_vsyncCount (tv : TV) (σ : SignalAttributes) :
    (signalVSync tv σ).1.state.vsyncCount =
      (if σ.vsync = true ∧ tv.state.lastSignal.vsync = false then 0 else tv.state.vsyncCount) ∧
    (signalVSync tv σ).1.state.lastSignal = tv.state.lastSignal := by
  unfold signalVSync
  constructor
  · split_ifs <;>
      first
        | rfl
        | (obtain ⟨⟨-, -, -, -, hvc, -, -⟩, -, -⟩ := newFrame_state tv true; exact hvc)
        | simp_all
  · split_ifs <;>
      first
        | rfl
        | (obtain ⟨⟨-, -, -, -, -, hls, -⟩, -, -⟩ := newFrame_state tv true; exact hls)
        | simp_all

theorem signalHoriz_frameNum_le (tv : TV) :
    tv.state.frameNum ≤ (signalHoriz tv).1.state.frameNum := by
  by_cases h : HorizClksScanline ≤ tv.state.horizPos + 1 ∧ tv.state.spec.scanlinesTotal < tv.state.scanline + 1
  · rw [(signalHoriz_frameNum tv).1 h]
    omega
  · rw [(signalHoriz_frameNum tv).2 h]

theorem signalHSync_vsyncCount (tv : TV) (σ : SignalAttributes) :
    (signalHSync tv σ).state.vsyncCount =
      (if (σ.hsync = true ∧ tv.state.lastSignal.hsync = false) ∧
          (σ.vsync = true ∨ tv.state.lastSignal.vsync = true) then
        tv.state.vsyncCount + 1
      else tv.state.vsyncCount) := by
  unfold signalHSync
  dsimp only
  split_ifs <;> simp_all

theorem signalHSync_horizPos (tv : TV) (σ : SignalAttributes) :
    (signalHSync tv σ).state.horizPos =
      (if σ.hsync = true ∧ tv.state.lastSignal.hsync = false then 16
       else if σ.hsync = false ∧ tv.state.lastSignal.hsync = true then 36
       else tv.state.horizPos) := by
  unfold signalHSync
  dsimp only
  split_ifs <;> simp_all

/-- C2: on every Signal call, a VSYNC rising edge resets the
consecutive-vsync counter to zero (after which the HSYNC rising edge of the
same event, if any, adds its line count of one); a VSYNC falling edge with a
non-zero counter finalizes the current frame as synced and starts a new one
(the frame-in-progress flag becomes synced, the scanline counter and the
history cursor restart, the frame counter advances); and when a VSYNC-driven
synced flyback and a natural end-of-screen flyback both apply in the same
event, both frame boundaries occur and the VSYNC-driven synced one wins: the
frame left in progress is the synced one. -/
theorem C2_vsync_edge_behavior (tv : TV) (σ : SignalAttributes) :
    ((σ.vsync = true ∧ tv.state.lastSignal.vsync = false) →
      (signal tv σ).1.state.vsyncCount =
        (if σ.hsync = true ∧ tv.state.lastSignal.hsync = false then 1 else 0)) ∧
    ((σ.vsync = false ∧ tv.state.lastSignal.vsync = true ∧ 0 < tv.state.vsyncCount) →
      (signal tv σ).1.state.syncedFrame = true ∧
      (signal tv σ).1.state.scanline = 0 ∧
      tv.state.frameNum < (signal tv σ).1.state.frameNum ∧
      (signal tv σ).1.state.signalHistoryIdx = 1) ∧
    ((σ.vsync = false ∧ tv.state.lastSignal.vsync = true ∧ 0 < tv.state.vsyncCount ∧
      HorizClksScanline ≤ tv.state.horizPos + 1 ∧
      tv.state.spec.scanlinesTotal < tv.state.scanline + 1) →
      (signal tv σ).1.state.frameNum = tv.state.frameNum + 2 ∧
      (signal tv σ).1.state.syncedFrame = true) := by
  obtain ⟨hvc1, hls1⟩ := signalHoriz_keep tv
  refine ⟨?_, ?_, ?_⟩
  · rintro ⟨hv, hl⟩
    unfold signal
    dsimp only
    obtain ⟨-, -, -, -, -, hvc4, -, -, -⟩ :=
      signalHistory_keep (signalHSync (signalVSync (signalHoriz tv).1 σ).1 σ) σ
    rw [hvc4, signalHSync_vsyncCount]
    obtain ⟨hvc2, hls2⟩ := signalVSync_vsyncCount (signalHoriz tv).1 σ
    rw [hvc2, hls2, hls1, hvc1, hl, hv]
    simp [hv]
  · rintro ⟨hv, hl, hc⟩
    have hfall : signalVSync (signalHoriz tv).1 σ = newFrame (signalHoriz tv).1 true :=
      signalVSync_falling_pos _ σ hv (by rw [hls1]; exact hl) (by rw [hvc1]; exact hc)
    unfold signal
    dsimp only
    obtain ⟨-, hsl3, hfr3, hsf3, -, -, -, hidx3, -⟩ :=
      signalHistory_keep (signalHSync (signalVSync (signalHoriz tv).1 σ).1 σ) σ
    obtain ⟨hsl2, hfr2, hsf2, hsfn2, -, hidx2, -⟩ :=
      signalHSync_keep (signalVSync (signalHoriz tv).1 σ).1 σ
    obtain ⟨⟨hslN, hsfN, hfrN, -, -, -, hidxN⟩, -, -⟩ := newFrame_state (signalHoriz tv).1 true
    have e1 : (signalVSync (signalHoriz tv).1 σ).1 = (newFrame (signalHoriz tv).1 true).1 := by
      rw [hfall]
    refine ⟨?_, ?_, ?_, ?_⟩
    · rw [hsf3, hsf2, e1, hsfN]
    · rw [hsl3, hsl2, e1, hslN]
    · rw [hfr3, hfr2, e1, hfrN]
      have := signalHoriz_frameNum_le tv
      omega
    · rw [hidx3, hidx2, e1, hidxN]
  · rintro ⟨hv, hl, hc, hw, hn⟩
    have hfall : signalVSync (signalHoriz tv).1 σ = newFrame (signalHoriz tv).1 true :=
      signalVSync_falling_pos _ σ hv (by rw [hls1]; exact hl) (by rw [hvc1]; exact hc)
    unfold signal
    dsimp only
    obtain ⟨-, -, hfr3, hsf3, -, -, -, -, -⟩ :=
      signalHistory_keep (signalHSync (signalVSync (signalHoriz tv).1 σ).1 σ) σ
    obtain ⟨-, hfr2, hsf2, -, -, -, -⟩ :=
      signalHSync_keep (signalVSync (signalHoriz tv).1 σ).1 σ
    obtain ⟨⟨-, hsfN, hfrN, -, -, -, -⟩, -, -⟩ := newFrame_state (signalHoriz tv).1 true
    have e1 : (signalVSync (signalHoriz tv).1 σ).1 = (newFrame (signalHoriz tv).1 true).1 := by
      rw [hfall]
    have hfr1 : (signalHoriz tv).1.state.frameNum = tv.state.frameNum + 1 :=
      (signalHoriz_frameNum tv).1 ⟨hw, hn⟩
    constructor
    · rw [hfr3, hfr2, e1, hfrN, hfr1]
    · rw [hsf3, hsf2, e1, hsfN]

/-- Concrete inputs for the C2 witness. -/
def tvW2a : TV := { reqSpecID := "NTSC", heap := [[]], state := {} }

def sigW2a : SignalAttributes := { vsync := true, hsync := true }

def tvW2c : TV :=
  { reqSpecID := "NTSC", heap := [[]],
    state := { horizPos := 227, scanline := 262, vsyncCount := 1, lastSignal := { vsync := true } } }

theorem C2_vsync_edge_behavior_witness :
    ((signal tvW2a sigW2a).1.state.vsyncCount =
      (if sigW2a.hsync = true ∧ tvW2a.state.lastSignal.hsync = false then 1 else 0)) ∧
    ((signal tvW2c {}).1.state.syncedFrame = true ∧
     (signal tvW2c {}).1.state.scanline = 0 ∧
     tvW2c.state.frameNum < (signal tvW2c {}).1.state.frameNum ∧
     (signal tvW2c {}).1.state.signalHistoryIdx = 1) ∧
    ((signal tvW2c {}).1.state.frameNum = tvW2c.state.frameNum + 2 ∧
     (signal tvW2c {}).1.state.syncedFrame = true) :=
  ⟨(C2_vsync_edge_behavior tvW2a sigW2a).1 ⟨rfl, rfl⟩,
   (C2_vsync_edge_behavior tvW2c {}).2.1 ⟨rfl, rfl, by decide⟩,
   (C2_vsync_edge_behavior tvW2c {}).2.2 ⟨rfl, rfl, by decide, by decide, by decide⟩⟩

/-- C6: on every Signal call, an HSYNC rising edge forces the horizontal
position to the fixed front-of-sync value (16) and, when either this event
or the previous one had vsync asserted, increments the consecutive-vsync
counter (on top of the reset a simultaneous VSYNC rising edge performs);
an HSYNC falling edge forces the horizontal position to the fixed
back-of-sync value (36). -/
theorem C6_hsync_edge_behavior (tv : TV) (σ : SignalAttributes) :
    ((σ.hsync = true ∧ tv.state.lastSignal.hsync = false) →
      (signal tv σ).1.state.horizPos = 16 ∧
      (signal tv σ).1.state.vsyncCount =
        (if σ.vsync = true ∨ tv.state.lastSignal.vsync = true then
          (if σ.vsync = true ∧ tv.state.lastSignal.vsync = false then 0
           else tv.state.vsyncCount) + 1
         else tv.state.vsyncCount)) ∧
    ((σ.hsync = false ∧ tv.state.lastSignal.hsync = true) →
      (signal tv σ).1.state.horizPos = 36) := by
  obtain ⟨hvc1, hls1⟩ := signalHoriz_keep tv
  obtain ⟨hvc2, hls2⟩ := signalVSync_vsyncCount (signalHoriz tv).1 σ
  constructor
  · rintro ⟨hh, hlh⟩
    unfold signal
    dsimp only
    obtain ⟨hhp3, -, -, -, -, hvc3, -, -, -⟩ :=
      signalHistory_keep (signalHSync (signalVSync (signalHoriz tv).1 σ).1 σ) σ
    constructor
    · rw [hhp3, signalHSync_horizPos, hls2, hls1, if_pos ⟨hh, hlh⟩]
    · rw [hvc3, signalHSync_vsyncCount, hls2, hls1, hvc2, hls1, hvc1]
      by_cases hvv : σ.vsync = true ∨ tv.state.lastSignal.vsync = true
      · rw [if_pos ⟨⟨hh, hlh⟩, hvv⟩, if_pos hvv]
      · rw [if_neg (by tauto), if_neg hvv]
        have hv1 : ¬(σ.vsync = true ∧ tv.state.lastSignal.vsync = false) := by tauto
        rw [if_neg hv1]
  · rintro ⟨hh, hlh⟩
    unfold signal
    dsimp only
    obtain ⟨hhp3, -, -, -, -, -, -, -, -⟩ :=
      signalHistory_keep (signalHSync (signalVSync (signalHoriz tv).1 σ).1 σ) σ
    rw [hhp3, signalHSync_horizPos, hls2, hls1]
    rw [if_neg (by simp [hh]), if_pos ⟨hh, hlh⟩]

/-- Concrete inputs for the C6 witness. -/
def tvW6 : TV :=
  { reqSpecID := "NTSC", heap := [[]],
    state := { horizPos := 100, vsyncCount := 3, lastSignal := { vsync := true, hsync := false } } }

def tvW6b : TV :=
  { reqSpecID := "NTSC", heap := [[]],
    state := { horizPos := 100, lastSignal := { hsync := true } } }

theorem C6_hsync_edge_behavior_witness :
    ((signal tvW6 { hsync := true }).1.state.horizPos = 16 ∧
     (signal tvW6 { hsync := true }).1.state.vsyncCount =
       (if ({ hsync := true } : SignalAttributes).vsync = true ∨ tvW6.state.lastSignal.vsync = true then
         (if ({ hsync := true } : SignalAttributes).vsync = true ∧ tvW6.state.lastSignal.vsync = false then 0
          else tvW6.state.vsyncCount) + 1
        else tvW6.state.vsyncCount)) ∧
    (signal tvW6b {}).1.state.horizPos = 36 :=
  ⟨(C6_hsync_edge_behavior tvW6 { hsync := true }).1 ⟨rfl, rfl⟩,
   (C6_hsync_edge_behavior tvW6b {}).2 ⟨rfl, rfl⟩⟩

theorem signalHSync_auto (tv : TV) (σ : SignalAttributes) :
    (signalHSync tv σ).state.auto = tv.state.auto := by
  unfold signalHSync
  dsimp only
  split_ifs <;> simp

theorem signalHistory_auto (tv : TV) (σ : SignalAttributes) :
    (signalHistory tv σ).state.auto = tv.state.auto := rfl

/-- The condition under which `newFrame` switches the specification, read
directly off the source: auto-detection enabled, the frame being finished
was unsynced (hence the synced-frame counter was not bumped by this
finalization), the counter strictly inside the (leadingFrames,
stabilityThreshold) window, the scanline counter beyond the
excessScanlinesNTSC threshold, and the active specification NTSC. -/
def switchCond (tv : TV) : Prop :=
  tv.state.auto = true ∧ tv.state.syncedFrame = false ∧
  leadingFrames < tv.state.syncedFrameNum ∧ tv.state.syncedFrameNum < stabilityThreshold ∧
  excessScanlinesNTSC < tv.state.scanline ∧ tv.state.spec.id = SpecID.NTSC

instance (tv : TV) : Decidable (switchCond tv) := by
  unfold switchCond
  infer_instance

theorem newFrame_switch (tv : TV) (b : Bool) :
    (switchCond tv →
      (newFrame tv b).1.state.spec = SpecPAL ∧ (newFrame tv b).1.state.auto = false) ∧
    (¬switchCond tv → (newFrame tv b).1.state.spec = tv.state.spec ∧
      (newFrame tv b).1.state.auto = tv.state.auto) := by
  constructor
  · rintro ⟨c1, c2, c3, c4, c5, c6⟩
    unfold newFrame
    dsimp only
    split_ifs with h1 h2 h3 h4 <;>
      first
        | (simp [setSpec_pal, setSpecWith]; done)
        | (exfalso; simp_all [SpecNTSC]; done)
  · intro hnc
    unfold newFrame
    dsimp only
    split_ifs with h1 h2 h3 h4 <;>
      first
        | exact ⟨rfl, rfl⟩
        | (exfalso
           exact hnc ⟨by simp_all, by simp_all, by simp_all, by simp_all, by simp_all, by simp_all [SpecNTSC]⟩)

theorem newFrame_spec_auto (tv : TV) (b : Bool) :
    ((newFrame tv b).1.state.spec = tv.state.spec ∧
     (newFrame tv b).1.state.auto = tv.state.auto) ∨
    (tv.state.spec.id = SpecID.NTSC ∧ tv.state.auto = true ∧
     (newFrame tv b).1.state.spec = SpecPAL ∧ (newFrame tv b).1.state.auto = false) := by
  by_cases hc : switchCond tv
  · right
    obtain ⟨hs, ha⟩ := (newFrame_switch tv b).1 hc
    exact ⟨hc.2.2.2.2.2, hc.1, hs, ha⟩
  · left
    exact (newFrame_switch tv b).2 hc

theorem signalHoriz_spec_auto (tv : TV) :
    ((signalHoriz tv).1.state.spec = tv.state.spec ∧
     (signalHoriz tv).1.state.auto = tv.state.auto) ∨
    (tv.state.spec.id = SpecID.NTSC ∧ tv.state.auto = true ∧
     (signalHoriz tv).1.state.spec = SpecPAL ∧ (signalHoriz tv).1.state.auto = false) := by
  unfold signalHoriz
  dsimp only
  split_ifs
  · exact newFrame_spec_auto _ false
  · left
    exact ⟨rfl, rfl⟩
  · left
    exact ⟨rfl, rfl⟩

theorem signalVSync_spec_auto (tv : TV) (σ : SignalAttributes) :
    ((signalVSync tv σ).1.state.spec = tv.state.spec ∧
     (signalVSync tv σ).1.state.auto = tv.state.auto) ∨
    (tv.state.spec.id = SpecID.NTSC ∧ tv.state.auto = true ∧
     (signalVSync tv σ).1.state.spec = SpecPAL ∧ (signalVSync tv σ).1.state.auto = false) := by
  unfold signalVSync
  dsimp only
  split_ifs
  · left
    exact ⟨rfl, rfl⟩
  · exact newFrame_spec_auto _ true
  · left
    exact ⟨rfl, rfl⟩
  · left
    exact ⟨rfl, rfl⟩

theorem signal_spec_auto (tv : TV) (σ : SignalAttributes) :
    ((signal tv σ).1.state.spec = tv.state.spec ∧
     (signal tv σ).1.state.auto = tv.state.auto) ∨
    (tv.state.spec.id = SpecID.NTSC ∧ tv.state.auto = true ∧
     (signal tv σ).1.state.spec = SpecPAL ∧ (signal tv σ).1.state.auto = false) := by
  have hsp2 := (signalHSync_keep (signalVSync (signalHoriz tv).1 σ).1 σ).2.2.2.2.2.2
  have ha2 := signalHSync_auto (signalVSync (signalHoriz tv).1 σ).1 σ
  have hsp3 := (signalHistory_keep (signalHSync (signalVSync (signalHoriz tv).1 σ).1 σ) σ).2.2.2.2.2.2.1
  have ha3 := signalHistory_auto (signalHSync (signalVSync (signalHoriz tv).1 σ).1 σ) σ
  have hend : (signal tv σ).1.state.spec =
      (signalVSync (signalHoriz tv).1 σ).1.state.spec ∧
      (signal tv σ).1.state.auto = (signalVSync (signalHoriz tv).1 σ).1.state.auto := by
    unfold signal
    dsimp only
    exact ⟨hsp3.trans hsp2, ha3.trans ha2⟩
  refine (signalHoriz_spec_auto tv).elim (fun h1 => ?_) (fun h1 => ?_) <;>
    refine (signalVSync_spec_auto (signalHoriz tv).1 σ).elim (fun h2 => ?_) (fun h2 => ?_)
  · left
    rw [hend.1, hend.2, h2.1, h2.2, h1.1, h1.2]
    exact ⟨rfl, rfl⟩
  · right
    refine ⟨?_, ?_, ?_, ?_⟩
    · rw [← h1.1]
      exact h2.1
    · rw [← h1.2]
      exact h2.2.1
    · rw [hend.1]
      exact h2.2.2.1
    · rw [hend.2]
      exact h2.2.2.2
  · right
    refine ⟨h1.1, h1.2.1, ?_, ?_⟩
    · rw [hend.1, h2.1]
      exact h1.2.2.1
    · rw [hend.2, h2.2]
      exact h1.2.2.2
  · exfalso
    have := h2.2.1
    rw [h1.2.2.2] at this
    exact Bool.noConfusion this

theorem newFrame_syncedFrameNum_le (tv : TV) (b : Bool) :
    tv.state.syncedFrameNum ≤ (newFrame tv b).1.state.syncedFrameNum := by
  obtain ⟨-, -, hd⟩ := newFrame_state tv b
  rcases hd with hd | hd <;> omega

theorem signalHoriz_syncedFrameNum_le (tv : TV) :
    tv.state.syncedFrameNum ≤ (signalHoriz tv).1.state.syncedFrameNum := by
  unfold signalHoriz
  dsimp only
  split_ifs
  · exact newFrame_syncedFrameNum_le
      { reqSpecID := tv.reqSpecID, heap := tv.heap,
        state := { tv.state with horizPos := 0, scanline := tv.state.scanline + 1 } } false
  · exact le_refl _
  · exact le_refl _

theorem signalVSync_syncedFrameNum_le (tv : TV) (σ : SignalAttributes) :
    tv.state.syncedFrameNum ≤ (signalVSync tv σ).1.state.syncedFrameNum := by
  unfold signalVSync
  dsimp only
  split_ifs
  · exact le_refl _
  · exact newFrame_syncedFrameNum_le tv true
  · exact le_refl _
  · exact le_refl _

theorem signal_syncedFrameNum_le (tv : TV) (σ : SignalAttributes) :
    tv.state.syncedFrameNum ≤ (signal tv σ).1.state.syncedFrameNum := by
  unfold signal
  dsimp only
  rw [(signalHistory_keep (signalHSync (signalVSync (signalHoriz tv).1 σ).1 σ) σ).2.2.2.2.1,
    (signalHSync_keep (signalVSync (signalHoriz tv).1 σ).1 σ).2.2.2.1]
  exact le_trans (signalHoriz_syncedFrameNum_le tv) (signalVSync_syncedFrameNum_le _ σ)

theorem newFrame_spec_of_stable (tv : TV) (b : Bool)
    (h : stabilityThreshold ≤ tv.state.syncedFrameNum) :
    (newFrame tv b).1.state.spec = tv.state.spec := by
  refine ((newFrame_switch tv b).2 (fun hc => ?_)).1
  have := hc.2.2.2.1
  omega

theorem signalHoriz_spec_of_stable (tv : TV)
    (h : stabilityThreshold ≤ tv.state.syncedFrameNum) :
    (signalHoriz tv).1.state.spec = tv.state.spec := by
  unfold signalHoriz
  dsimp only
  split_ifs
  · exact newFrame_spec_of_stable
      { reqSpecID := tv.reqSpecID, heap := tv.heap,
        state := { tv.state with horizPos := 0, scanline := tv.state.scanline + 1 } } false h
  · rfl
  · rfl

theorem signalVSync_spec_of_stable (tv : TV) (σ : SignalAttributes)
    (h : stabilityThreshold ≤ tv.state.syncedFrameNum) :
    (signalVSync tv σ).1.state.spec = tv.state.spec := by
  unfold signalVSync
  dsimp only
  split_ifs
  · rfl
  · exact newFrame_spec_of_stable tv true h
  · rfl
  · rfl

theorem signal_spec_of_stable (tv : TV) (σ : SignalAttributes)
    (h : stabilityThreshold ≤ tv.state.syncedFrameNum) :
    (signal tv σ).1.state.spec = tv.state.spec := by
  unfold signal
  dsimp only
  rw [(signalHistory_keep (signalHSync (signalVSync (signalHoriz tv).1 σ).1 σ) σ).2.2.2.2.2.2.1,
    (signalHSync_keep (signalVSync (signalHoriz tv).1 σ).1 σ).2.2.2.2.2.2,
    signalVSync_spec_of_stable _ σ (le_trans h (signalHoriz_syncedFrameNum_le tv)),
    signalHoriz_spec_of_stable tv h]

theorem run_spec_of_stable (tv : TV) (sigs : List SignalAttributes)
    (h : stabilityThreshold ≤ tv.state.syncedFrameNum) :
    (run tv sigs).state.spec = tv.state.spec := by
  induction sigs generalizing tv with
  | nil => rfl
  | cons σ rest ih =>
    have h2 := le_trans h (signal_syncedFrameNum_le tv σ)
    exact (ih (signal tv σ).1 h2).trans (signal_spec_of_stable tv σ h)

/-- The all-false signal (one idle color clock). -/
def sigPlain : SignalAttributes := {}

/-- The mid-climb state used by the C3 counterexample run: NTSC with
auto-detection on, synced-frame counter 6, previous frame unsynced. -/
def climbState (hp sl : Int) (fr idx : Nat) : State :=
  { spec := SpecNTSC, auto := true, horizPos := hp, frameNum := fr, scanline := sl,
    syncedFrameNum := 6, syncedFrame := false, lastSignal := {}, vsyncCount := 0,
    top := 40, bottom := 232, signalHistory := { arr := 0, len := 43776 }, signalHistoryIdx := idx }

def climbTV (H : List (List SignalHistoryEntry)) (hp sl : Int) (fr idx : Nat) : TV :=
  { reqSpecID := "AUTO", heap := H, state := climbState hp sl fr idx }

theorem climb_horiz (H : List (List SignalHistoryEntry)) (hp sl : Int) (fr idx : Nat)
    (h2 : hp + 1 < 228) :
    signalHoriz (climbTV H hp sl fr idx) = (climbTV H (hp + 1) sl fr idx, []) := by
  unfold signalHoriz climbTV climbState
  dsimp only
  rw [if_neg (by simp only [HorizClksScanline]; omega)]

theorem climb_vsync (H : List (List SignalHistoryEntry)) (hp sl : Int) (fr idx : Nat) :
    signalVSync (climbTV H hp sl fr idx) sigPlain = (climbTV H hp sl fr idx, []) := by
  unfold signalVSync climbTV climbState sigPlain
  dsimp only
  rw [if_neg (by simp), if_neg (by simp)]

theorem climb_hsync (H : List (List SignalHistoryEntry)) (hp sl : Int) (fr idx : Nat) :
    signalHSync (climbTV H hp sl fr idx) sigPlain = climbTV H hp sl fr idx := by
  unfold signalHSync climbTV climbState sigPlain
  dsimp only
  rw [if_neg (by simp), if_neg (by simp)]

theorem climb_history (H : List (List SignalHistoryEntry)) (hp sl : Int) (fr idx : Nat)
    (h3 : idx < 43776) :
    signalHistory (climbTV H hp sl fr idx) sigPlain =
      climbTV (heapSet H 0 ((heapGet H 0).set idx { x := hp, y := sl, sig := sigPlain }))
        hp sl fr (idx + 1) := by
  unfold signalHistory climbTV climbState sigPlain
  dsimp only
  rw [if_neg (by omega)]

theorem climb_one (H : List (List SignalHistoryEntry)) (hp sl : Int) (fr idx : Nat)
    (h2 : hp + 1 < 228) (h3 : idx < 43776) :
    (signal (climbTV H hp sl fr idx) sigPlain).1 =
      climbTV (heapSet H 0 ((heapGet H 0).set idx { x := hp + 1, y := sl, sig := sigPlain }))
        (hp + 1) sl fr (idx + 1) := by
  unfold signal
  dsimp only
  rw [climb_horiz H hp sl fr idx h2]
  dsimp only
  rw [climb_vsync H (hp + 1) sl fr idx]
  dsimp only
  rw [climb_hsync H (hp + 1) sl fr idx]
  rw [climb_history H (hp + 1) sl fr idx h3]

theorem run_cons (tv : TV) (σ : SignalAttributes) (rest : List SignalAttributes) :
    run tv (σ :: rest) = run (signal tv σ).1 rest := rfl

theorem run_append (tv : TV) (a b : List SignalAttributes) :
    run tv (a ++ b) = run (run tv a) b := by
  unfold run
  exact List.foldl_append _ _ a b

theorem climb_seg (k : Nat) : ∀ (H : List (List SignalHistoryEntry)) (hp sl : Int) (fr idx : Nat),
    hp + k ≤ 227 → idx + k ≤ 43776 →
    ∃ H2, run (climbTV H hp sl fr idx) (List.replicate k sigPlain) =
      climbTV H2 (hp + (k : Int)) sl fr (idx + k) := by
  induction k with
  | zero =>
    intro H hp sl fr idx h1 h2
    refine ⟨H, ?_⟩
    simp [run]
  | succ k ih =>
    intro H hp sl fr idx h1 h2
    rw [List.replicate_succ, run_cons,
      climb_one H hp sl fr idx (by omega) (by omega)]
    obtain ⟨H2, e⟩ := ih _ (hp + 1) sl fr (idx + 1) (by omega) (by omega)
    refine ⟨H2, ?_⟩
    rw [e]
    have e1 : hp + 1 + (k : Int) = hp + ((k : Nat) + 1 : Nat) := by
      push_cast
      ring
    have e2 : idx + 1 + k = idx + (k + 1) := by omega
    rw [e1, e2]

theorem climb_wrap (H : List (List SignalHistoryEntry)) (sl : Int) (fr idx : Nat)
    (h1 : sl + 1 ≤ 262) (h3 : idx < 43776) :
    (signal (climbTV H 227 sl fr idx) sigPlain).1 =
      climbTV (heapSet H 0 ((heapGet H 0).set idx { x := 0, y := sl + 1, sig := sigPlain }))
        0 (sl + 1) fr (idx + 1) := by
  have ehoriz : signalHoriz (climbTV H 227 sl fr idx) =
      (climbTV H 0 (sl + 1) fr idx, [Event.newScanline (sl + 1)]) := by
    unfold signalHoriz newScanline climbTV climbState
    dsimp only
    rw [if_pos (by simp only [HorizClksScanline]; omega),
      if_neg (by simp only [SpecNTSC]; omega)]
  unfold signal
  dsimp only
  rw [ehoriz]
  dsimp only
  rw [climb_vsync H 0 (sl + 1) fr idx]
  dsimp only
  rw [climb_hsync H 0 (sl + 1) fr idx]
  rw [climb_history H 0 (sl + 1) fr idx h3]

theorem climb_line (H : List (List SignalHistoryEntry)) (sl : Int) (fr idx : Nat)
    (h1 : sl + 1 ≤ 262) (h2 : idx + 228 ≤ 43776) :
    ∃ H2, run (climbTV H 0 sl fr idx) (List.replicate 228 sigPlain) =
      climbTV H2 0 (sl + 1) fr (idx + 228) := by
  have e0 : List.replicate 228 sigPlain =
      List.replicate 227 sigPlain ++ [sigPlain] := by
    rw [← List.replicate_succ']
  obtain ⟨H2, e⟩ := climb_seg 227 H 0 sl fr idx (by omega) (by omega)
  rw [e0, run_append, e]
  have e1 : ((0 : Int) + (227 : Nat)) = (227 : Int) := by norm_num
  rw [e1]
  refine ⟨heapSet H2 0 ((heapGet H2 0).set (idx + 227) { x := 0, y := sl + 1, sig := sigPlain }), ?_⟩
  have erun : run (climbTV H2 227 sl fr (idx + 227)) [sigPlain] =
      (signal (climbTV H2 227 sl fr (idx + 227)) sigPlain).1 := rfl
  rw [erun, climb_wrap H2 sl fr (idx + 227) h1 (by omega)]

theorem climb_lines (n : Nat) : ∀ (H : List (List SignalHistoryEntry)) (sl : Int) (fr idx : Nat),
    sl + n ≤ 262 → idx + 228 * n ≤ 43776 →
    ∃ H2, run (climbTV H 0 sl fr idx) (List.replicate (228 * n) sigPlain) =
      climbTV H2 0 (sl + (n : Int)) fr (idx + 228 * n) := by
  induction n with
  | zero =>
    intro H sl fr idx h1 h2
    refine ⟨H, ?_⟩
    simp [run]
  | succ n ih =>
    intro H sl fr idx h1 h2
    have e0 : 228 * (n + 1) = 228 + 228 * n := by ring
    rw [e0, List.replicate_add, run_append]
    obtain ⟨H2, e⟩ := climb_line H sl fr idx (by omega) (by omega)
    rw [e]
    obtain ⟨H3, e3⟩ := ih H2 (sl + 1) fr (idx + 228) (by omega) (by omega)
    refine ⟨H3, ?_⟩
    rw [e3]
    have e4 : sl + 1 + (n : Int) = sl + ((n + 1 : Nat) : Int) := by
      push_cast
      ring
    have e5 : idx + 228 + 228 * n = idx + 228 * (n + 1) := by ring
    rw [e4]
    congr 1
    omega

def sigV : SignalAttributes := { vsync := true }

def sigVH : SignalAttributes := { vsync := true, hsync := true }

def pulse1State (fr idx : Nat) : State :=
  { spec := SpecNTSC, auto := true, horizPos := 1, frameNum := fr, scanline := 41,
    syncedFrameNum := 6, syncedFrame := false, lastSignal := sigV, vsyncCount := 0,
    top := 40, bottom := 232, signalHistory := { arr := 0, len := 43776 },
    signalHistoryIdx := idx }

def pulse1TV (H : List (List SignalHistoryEntry)) (fr idx : Nat) : TV :=
  { reqSpecID := "AUTO", heap := H, state := pulse1State fr idx }

def pulse2State (fr idx : Nat) : State :=
  { spec := SpecNTSC, auto := true, horizPos := 16, frameNum := fr, scanline := 41,
    syncedFrameNum := 6, syncedFrame := false, lastSignal := sigVH, vsyncCount := 1,
    top := 40, bottom := 232, signalHistory := { arr := 0, len := 43776 },
    signalHistoryIdx := idx }

def pulse2TV (H : List (List SignalHistoryEntry)) (fr idx : Nat) : TV :=
  { reqSpecID := "AUTO", heap := H, state := pulse2State fr idx }

theorem pulse_step1 (H : List (List SignalHistoryEntry)) (fr idx : Nat) (h : idx < 43776) :
    (signal (climbTV H 0 41 fr idx) sigV).1 =
      pulse1TV (heapSet H 0 ((heapGet H 0).set idx { x := 1, y := 41, sig := sigV })) fr (idx + 1) := by
  unfold signal
  dsimp only
  rw [climb_horiz H 0 41 fr idx (by omega)]
  dsimp only
  have ev : signalVSync (climbTV H (0 + 1) 41 fr idx) sigV = (climbTV H (0 + 1) 41 fr idx, []) := by
    unfold signalVSync climbTV climbState sigV
    dsimp only
    rw [if_pos ⟨rfl, rfl⟩]
  rw [ev]
  dsimp only
  have eh : signalHSync (climbTV H (0 + 1) 41 fr idx) sigV = climbTV H (0 + 1) 41 fr idx := by
    unfold signalHSync climbTV climbState sigV
    dsimp only
    rw [if_neg (by simp), if_neg (by simp)]
  rw [eh]
  unfold signalHistory climbTV climbState pulse1TV pulse1State sigV
  dsimp only
  rw [if_neg (by omega)]
  rfl

def pulse1bState (fr idx : Nat) : State :=
  { spec := SpecNTSC, auto := true, horizPos := 2, frameNum := fr, scanline := 41,
    syncedFrameNum := 6, syncedFrame := false, lastSignal := sigV, vsyncCount := 0,
    top := 40, bottom := 232, signalHistory := { arr := 0, len := 43776 },
    signalHistoryIdx := idx }

def pulse1bTV (H : List (List SignalHistoryEntry)) (fr idx : Nat) : TV :=
  { reqSpecID := "AUTO", heap := H, state := pulse1bState fr idx }

def pre2State (fr idx : Nat) : State :=
  { spec := SpecNTSC, auto := true, horizPos := 16, frameNum := fr, scanline := 41,
    syncedFrameNum := 6, syncedFrame := false, lastSignal := sigV, vsyncCount := 1,
    top := 40, bottom := 232, signalHistory := { arr := 0, len := 43776 },
    signalHistoryIdx := idx }

def pre2TV (H : List (List SignalHistoryEntry)) (fr idx : Nat) : TV :=
  { reqSpecID := "AUTO", heap := H, state := pre2State fr idx }

theorem pulse_step2 (H : List (List SignalHistoryEntry)) (fr idx : Nat) (h : idx < 43776) :
    (signal (pulse1TV H fr idx) sigVH).1 =
      pulse2TV (heapSet H 0 ((heapGet H 0).set idx { x := 16, y := 41, sig := sigVH })) fr (idx + 1) := by
  unfold signal
  dsimp only
  have e1 : signalHoriz (pulse1TV H fr idx) = (pulse1bTV H fr idx, []) := by
    unfold signalHoriz pulse1TV pulse1State pulse1bTV pulse1bState
    dsimp only
    rw [if_neg (by simp only [HorizClksScanline]; omega)]
    rfl
  rw [e1]
  dsimp only
  have ev : signalVSync (pulse1bTV H fr idx) sigVH = (pulse1bTV H fr idx, []) := by
    unfold signalVSync pulse1bTV pulse1bState sigV sigVH
    dsimp only
    rw [if_neg (by simp), if_neg (by simp)]
  rw [ev]
  dsimp only
  have eh : signalHSync (pulse1bTV H fr idx) sigVH = pre2TV H fr idx := by
    unfold signalHSync pulse1bTV pulse1bState pre2TV pre2State sigV sigVH
    dsimp only
    split_ifs <;>
      first
        | rfl
        | (exfalso; simp_all)
  rw [eh]
  unfold signalHistory pre2TV pre2State pulse2TV pulse2State sigVH
  dsimp only
  rw [if_neg (by omega)]

def pulse2bState (fr idx : Nat) : State :=
  { spec := SpecNTSC, auto := true, horizPos := 17, frameNum := fr, scanline := 41,
    syncedFrameNum := 6, syncedFrame := false, lastSignal := sigVH, vsyncCount := 1,
    top := 40, bottom := 232, signalHistory := { arr := 0, len := 43776 },
    signalHistoryIdx := idx }

def pulse2bTV (H : List (List SignalHistoryEntry)) (fr idx : Nat) : TV :=
  { reqSpecID := "AUTO", heap := H, state := pulse2bState fr idx }

theorem pulse_step3 (H : List (List SignalHistoryEntry)) (fr idx : Nat) :
    (signal (pulse2TV H fr idx) sigPlain).1.state.spec = SpecPAL := by
  unfold signal
  dsimp only
  rw [(signalHistory_keep (signalHSync (signalVSync (signalHoriz (pulse2TV H fr idx)).1 sigPlain).1 sigPlain) sigPlain).2.2.2.2.2.2.1,
    (signalHSync_keep (signalVSync (signalHoriz (pulse2TV H fr idx)).1 sigPlain).1 sigPlain).2.2.2.2.2.2]
  have e1 : signalHoriz (pulse2TV H fr idx) = (pulse2bTV H fr idx, []) := by
    unfold signalHoriz pulse2TV pulse2State pulse2bTV pulse2bState
    dsimp only
    rw [if_neg (by simp only [HorizClksScanline]; omega)]
    rfl
  rw [e1]
  dsimp only
  have e2 : signalVSync (pulse2bTV H fr idx) sigPlain = newFrame (pulse2bTV H fr idx) true :=
    signalVSync_falling_pos _ _ rfl rfl Nat.one_pos
  rw [e2]
  exact ((newFrame_switch (pulse2bTV H fr idx) true).1
    ⟨rfl, rfl, by norm_num [pulse2bTV, pulse2bState, leadingFrames],
     by norm_num [pulse2bTV, pulse2bState, stabilityThreshold],
     by norm_num [pulse2bTV, pulse2bState, excessScanlinesNTSC], rfl⟩).1

theorem pulse_switch (H : List (List SignalHistoryEntry)) (fr idx : Nat) (h : idx + 3 ≤ 43776) :
    (run (climbTV H 0 41 fr idx) [sigV, sigVH, sigPlain]).state.spec = SpecPAL := by
  rw [run_cons, pulse_step1 H fr idx (by omega), run_cons,
    pulse_step2 _ fr (idx + 1) (by omega), run_cons]
  exact pulse_step3 _ fr _

def probeState : State :=
  { spec := SpecNTSC, auto := true, horizPos := 227, frameNum := 7, scanline := 262,
    syncedFrameNum := 5, syncedFrame := true, lastSignal := {}, vsyncCount := 0,
    top := 40, bottom := 232, signalHistory := { arr := 0, len := 43776 },
    signalHistoryIdx := 0 }

/-- The C3 counterexample start state: synced-frame counter 5, which is
outside the strict window (leadingFrames, stabilityThreshold); the previous
frame was synced and the beam is one clock short of the natural flyback. -/
def probeStart : TV :=
  { reqSpecID := "AUTO", heap := [List.replicate 43776 {}], state := probeState }

def probeSigs : List SignalAttributes :=
  sigPlain :: (List.replicate 9348 sigPlain ++ [sigV, sigVH, sigPlain])

theorem probe_stepA :
    (signal probeStart sigPlain).1 =
      climbTV
        (heapSet [List.replicate 43776 ({} : SignalHistoryEntry)] 0
          ((heapGet [List.replicate 43776 ({} : SignalHistoryEntry)] 0).set 0
            { x := 0, y := 0, sig := sigPlain }))
        0 0 8 1 := by
  rfl

theorem probe_switches : (run probeStart probeSigs).state.spec = SpecPAL := by
  have e0 : probeSigs = sigPlain :: (List.replicate 9348 sigPlain ++ [sigV, sigVH, sigPlain]) := rfl
  rw [e0, run_cons, probe_stepA, run_append]
  have e1 : (9348 : Nat) = 228 * 41 := by norm_num
  rw [e1]
  obtain ⟨H2, e⟩ := climb_lines 41
    (heapSet [List.replicate 43776 ({} : SignalHistoryEntry)] 0
      ((heapGet [List.replicate 43776 ({} : SignalHistoryEntry)] 0).set 0
        { x := 0, y := 0, sig := sigPlain }))
    0 8 1 (by norm_num) (by norm_num)
  rw [e]
  have e2 : ((0 : Int) + ((41 : Nat) : Int)) = 41 := by norm_num
  have e3 : 1 + 228 * 41 = 9349 := by norm_num
  rw [e2, e3]
  exact pulse_switch H2 8 9349 (by norm_num)

/-- The switching condition as claim C3 (and the spec) words it: the
scanline count must exceed the NTSC specification's total scanline count by
the excessScanlinesNTSC margin.  Stated for comparison with `switchCond`,
which is what the source actually tests. -/
def switchCondClaimed (tv : TV) : Prop :=
  tv.state.auto = true ∧ tv.state.syncedFrame = false ∧
  leadingFrames < tv.state.syncedFrameNum ∧ tv.state.syncedFrameNum < stabilityThreshold ∧
  SpecNTSC.scanlinesTotal + excessScanlinesNTSC < tv.state.scanline ∧
  tv.state.spec.id = SpecID.NTSC

instance (tv : TV) : Decidable (switchCondClaimed tv) := by
  unfold switchCondClaimed
  infer_instance

def cxState : State :=
  { spec := SpecNTSC, auto := true, horizPos := 100, frameNum := 7, scanline := 50,
    syncedFrameNum := 6, syncedFrame := false, lastSignal := {}, vsyncCount := 0,
    top := 40, bottom := 232, signalHistory := { arr := 0, len := 43776 },
    signalHistoryIdx := 0 }

/-- A television mid-frame at scanline 50 with auto-detection on, an
unsynced previous frame and synced-frame counter 6. -/
def cxTV : TV :=
  { reqSpecID := "AUTO", heap := [List.replicate 43776 {}], state := cxState }

/-- C3 counterexample: (1) at `cxTV` the finalization switches NTSC→PAL
although the scanline count (50) does not exceed the NTSC total by the
40-line margin — the code compares the scanline count against the bare
40-line constant; (2) feeding `probeSigs` from `probeStart`, whose
synced-frame counter (5) is outside the strict window, still switches the
specification, because the counter climbs into the window during the
sequence. -/
theorem C3_counterexample :
    ((newFrame cxTV false).1.state.spec = SpecPAL ∧
     cxTV.state.spec = SpecNTSC ∧
     ¬switchCondClaimed cxTV) ∧
    (¬(leadingFrames < probeStart.state.syncedFrameNum ∧
       probeStart.state.syncedFrameNum < stabilityThreshold) ∧
     probeStart.state.spec = SpecNTSC ∧
     (run probeStart probeSigs).state.spec = SpecPAL) := by
  constructor
  · refine ⟨((newFrame_switch cxTV false).1 (by decide)).1, rfl, by decide⟩
  · exact ⟨by decide, rfl, probe_switches⟩

/-- C3 (amended): during frame finalization the specification switches from
NTSC to PAL exactly when auto-detection is enabled, the finished frame was
unsynced, the synced-frame counter lies strictly between leadingFrames (5)
and stabilityThreshold (20), and the frame's scanline counter exceeds the
bare excessScanlinesNTSC threshold (40) — not the NTSC total plus 40; this
switch (which also clears the auto flag) is the only mutation of the
specification during signal processing; and once the synced-frame counter
has reached the stability threshold, any further event sequence leaves the
specification unchanged. -/
theorem C3_spec_switch_amended :
    (∀ (tv : TV) (b : Bool),
      (switchCond tv →
        (newFrame tv b).1.state.spec = SpecPAL ∧ (newFrame tv b).1.state.auto = false) ∧
      (¬switchCond tv →
        (newFrame tv b).1.state.spec = tv.state.spec ∧
        (newFrame tv b).1.state.auto = tv.state.auto)) ∧
    (∀ (tv : TV) (σ : SignalAttributes),
      ((signal tv σ).1.state.spec = tv.state.spec ∧
       (signal tv σ).1.state.auto = tv.state.auto) ∨
      (tv.state.spec.id = SpecID.NTSC ∧ tv.state.auto = true ∧
       (signal tv σ).1.state.spec = SpecPAL ∧ (signal tv σ).1.state.auto = false)) ∧
    (∀ (tv : TV) (sigs : List SignalAttributes),
      stabilityThreshold ≤ tv.state.syncedFrameNum →
      (run tv sigs).state.spec = tv.state.spec) :=
  ⟨newFrame_switch, signal_spec_auto, run_spec_of_stable⟩

def stableState : State :=
  { spec := SpecNTSC, auto := true, horizPos := 100, frameNum := 30, scanline := 50,
    syncedFrameNum := 20, syncedFrame := true, lastSignal := {}, vsyncCount := 0,
    top := 40, bottom := 232, signalHistory := { arr := 0, len := 43776 },
    signalHistoryIdx := 0 }

def stableTV : TV :=
  { reqSpecID := "AUTO", heap := [List.replicate 43776 {}], state := stableState }

theorem C3_spec_switch_amended_witness :
    ((newFrame cxTV false).1.state.spec = SpecPAL ∧ (newFrame cxTV false).1.state.auto = false) ∧
    ((newFrame probeStart true).1.state.spec = probeStart.state.spec ∧
     (newFrame probeStart true).1.state.auto = probeStart.state.auto) ∧
    (run stableTV [sigPlain]).state.spec = stableTV.state.spec :=
  ⟨(C3_spec_switch_amended.1 cxTV false).1 (by decide),
   (C3_spec_switch_amended.1 probeStart true).2 (by decide),
   C3_spec_switch_amended.2.2 stableTV [sigPlain] (by decide)⟩

theorem run_syncedFrameNum_le (tv : TV) (sigs : List SignalAttributes) :
    tv.state.syncedFrameNum ≤ (run tv sigs).state.syncedFrameNum := by
  induction sigs generalizing tv with
  | nil => exact le_refl _
  | cons σ rest ih =>
    exact le_trans (signal_syncedFrameNum_le tv σ) (ih (signal tv σ).1)

/-- C4 (amended): `IsStable` is false while the synced-frame counter is
below the stability threshold (20); under any sequence of Signal calls the
counter never decreases, so once `IsStable` has returned true it stays true
for as long as only signals are processed — an explicit `Reset`, however,
zeroes the counter and makes it false again. -/
theorem C4_is_stable_amended :
    (∀ tv : TV, tv.state.syncedFrameNum < stabilityThreshold → isStable tv = false) ∧
    (∀ (tv : TV) (sigs : List SignalAttributes),
      isStable tv = true → isStable (run tv sigs) = true) := by
  constructor
  · intro tv h
    unfold isStable
    simp only [decide_eq_false_iff_not]
    omega
  · intro tv sigs h
    unfold isStable at *
    simp only [decide_eq_true_eq] at *
    exact le_trans h (run_syncedFrameNum_le tv sigs)

/-- One well-formed VSYNC pulse: rising edge, one HSYNC line while VSYNC is
held, falling edge. -/
def vsyncCycle : List SignalAttributes := [sigV, sigVH, sigPlain]

/-- Twenty-one VSYNC-pulse frames: enough synced frames to reach the
stability threshold from a fresh television. -/
def sigs63 : List SignalAttributes := (List.replicate 21 vsyncCycle).join

/-- The television after driving a fresh NTSC reference television through
21 synced frames. -/
def tvStable21 : TV := run tvNTSC sigs63

/-- C4 counterexample: after 21 synced frames the instance reports stable;
an explicit Reset on the same instance makes `IsStable` false again, so the
latch does not hold for the lifetime of the instance. -/
theorem C4_counterexample :
    isStable tvStable21 = true ∧
    (reset tvStable21).2.2 = none ∧
    isStable (reset tvStable21).1 = false := by
  refine ⟨by decide, by decide, by decide⟩

theorem C4_is_stable_amended_witness :
    isStable tvNTSC = false ∧ isStable (run tvStable21 [sigPlain]) = true :=
  ⟨C4_is_stable_amended.1 tvNTSC (by decide),
   C4_is_stable_amended.2 tvStable21 [sigPlain] (by decide)⟩

end Ref

namespace Tia

/-- Modelled from the spec (§4.1, "Clock primitive"): the polycounter
implementation is not among the provided sources.  A modulo counter with a
configurable reset count; `tick` advances one step, wrapping to zero and
reporting the wrap when it has passed the reset point; `matchEnd` reports
whether the count currently equals a target; `reset` forces it to the
start. -/
structure Polycounter where
  count : Nat := 0
  resetPoint : Nat := 0
deriving DecidableEq

def Polycounter.matchEnd (c : Polycounter) (n : Nat) : Bool :=
  c.count == n

def Polycounter.tick (c : Polycounter) : Polycounter × Bool :=
  if c.resetPoint ≤ c.count then ({ c with count := 0 }, true)
  else ({ c with count := c.count + 1 }, false)

def Polycounter.reset (c : Polycounter) : Polycounter :=
  { c with count := 0 }

/-- Modelled from the spec (§4.2, "Horizontal-move unit"): armed by a
register write; while active each tick emits an increasing index and the
unit deactivates after 15 extra clocks; `reset` clears it at every new-line
boundary. -/
structure Hmove where
  running : Bool := false
  count : Nat := 0
deriving DecidableEq

def Hmove.isActive (h : Hmove) : Bool :=
  h.running

def Hmove.set (_ : Hmove) : Hmove :=
  { running := true, count := 0 }

def Hmove.reset (_ : Hmove) : Hmove :=
  { running := false, count := 0 }

def Hmove.tick (h : Hmove) : Hmove × Nat × Bool :=
  if h.running then
    ({ running := decide (h.count + 1 < 15), count := h.count + 1 }, h.count, true)
  else (h, 0, false)

/-- Modelled from the spec (§4.3, "Forced-resync unit"): `set` arms a
pending immediate line reset; `tick` consumes the pending request and
reports it. -/
structure Rsync where
  pending : Bool := false
deriving DecidableEq

def Rsync.set (_ : Rsync) : Rsync :=
  { pending := true }

def Rsync.tick (r : Rsync) : Rsync × Bool :=
  ({ pending := false }, r.pending)

/-- The signal the TIA sends to the television each cycle (the era of the
sources uses a FrontPorch new-line marker; the pixel is an optional color
index, `none` standing for video black / blanked). -/
structure SignalAttributes where
  vsync : Bool := false
  vblank : Bool := false
  frontPorch : Bool := false
  hsync : Bool := false
  cburst : Bool := false
  pixel : Option Nat := none
deriving DecidableEq

/-- Calls the TIA makes into the video sub-system and the television during
one step (the video sub-system itself is outside the modelled core; its
pixel output is an input to `stepVideoCycle`). -/
inductive TiaEvent where
  | videoNewScanline
  | tickSpritesForHMOVE (ct : Nat)
  | tickSprites
  | tickPlayfield
  | tickFutures (motion : Bool)
  | tvSignal (sig : SignalAttributes)
deriving DecidableEq

/-- The TIA state (`type TIA struct`, timing-relevant fields). -/
structure TIA where
  colorClock : Polycounter := { resetPoint := 56 }
  motionClock : Bool := false
  hmove : Hmove := {}
  rsync : Rsync := {}
  vsync : Bool := false
  vblank : Bool := false
  hblank : Bool := true
  hsync : Bool := false
  wsync : Bool := false
deriving DecidableEq

/-- The first if-chain of `StepVideoCycle`: hblank-off at clock count 16
(18 when the move unit is active), hsync on/off at 4 and 8, color burst at
12.  Returns the updated TIA and the cburst flag. -/
def edgeChain (t : TIA) : TIA × Bool :=
  if t.colorClock.matchEnd 16 = true ∧ t.hmove.isActive = false then
    ({ t with hblank := false }, false)
  else if t.colorClock.matchEnd 18 = true ∧ t.hmove.isActive = true then
    ({ t with hblank := false }, false)
  else if t.colorClock.matchEnd 4 = true then
    ({ t with hsync := true }, false)
  else if t.colorClock.matchEnd 8 = true then
    ({ t with hsync := false }, false)
  else if t.colorClock.matchEnd 12 = true then
    (t, true)
  else (t, false)

/-- The motion-clock phase advance of `StepVideoCycle`. -/
def motionChain (t : TIA) : TIA :=
  if t.colorClock.matchEnd 15 = true then { t with motionClock := true }
  else if t.colorClock.matchEnd 56 = true then { t with motionClock := false }
  else t

/-- The new-scanline decision of `StepVideoCycle`: a matured forced resync
or the color clock's natural wraparound begins a new line — resetting the
clock, re-asserting hblank, resetting the move unit, clearing the WSYNC
hold and signalling a new scanline to the video sub-system. -/
def lineChain (t : TIA) : TIA × Bool × List TiaEvent :=
  let rr := t.rsync.tick
  if rr.2 = true then
    ({ t with rsync := rr.1, wsync := false, hblank := true, hmove := t.hmove.reset, colorClock := t.colorClock.reset },
     true, [TiaEvent.videoNewScanline])
  else
    let cc := t.colorClock.tick
    if cc.2 = true then
      ({ t with rsync := rr.1, colorClock := cc.1, wsync := false, hblank := true, hmove := t.hmove.reset },
       true, [TiaEvent.videoNewScanline])
    else
      ({ t with rsync := rr.1, colorClock := cc.1 }, false, [])

/-- `StepVideoCycle`: one video cycle.  Returns the new TIA state, the
"ready" line for the CPU (false exactly while the WSYNC hold stands), the
signal sent to the television and the trace of downstream calls.
(The collision-register write-back touches only chip memory and is outside
the modelled core.) -/
def stepVideoCycle (t : TIA) (videoPixel : Nat) : TIA × Bool × SignalAttributes × List TiaEvent :=
  let r1 := edgeChain t
  let t2 := motionChain r1.1
  let r3 := lineChain t2
  let t3 := r3.1
  let hm := t3.hmove.tick
  let t4 := { t3 with hmove := hm.1 }
  let ev2 := if hm.2.2 = true then [TiaEvent.tickSpritesForHMOVE hm.2.1] else []
  let ev3 := if t4.hblank = false then [TiaEvent.tickSprites] else []
  let ev4 := [TiaEvent.tickPlayfield, TiaEvent.tickFutures t4.motionClock]
  let pixel : Option Nat := if t4.hblank = true then none else some videoPixel
  let sig : SignalAttributes :=
    { vsync := t4.vsync, vblank := t4.vblank, frontPorch := r3.2.1, hsync := t4.hsync, cburst := r1.2, pixel := pixel }
  (t4, !t4.wsync, sig, r3.2.2 ++ ev2 ++ ev3 ++ ev4 ++ [TiaEvent.tvSignal sig])

end Tia

namespace Tia

theorem edgeChain_keep (t : TIA) :
    (edgeChain t).1.colorClock = t.colorClock ∧ (edgeChain t).1.rsync = t.rsync ∧
    (edgeChain t).1.hmove = t.hmove ∧ (edgeChain t).1.wsync = t.wsync ∧
    (edgeChain t).1.motionClock = t.motionClock ∧ (edgeChain t).1.vsync = t.vsync ∧
    (edgeChain t).1.vblank = t.vblank := by
  unfold edgeChain
  split_ifs <;> exact ⟨rfl, rfl, rfl, rfl, rfl, rfl, rfl⟩

theorem motionChain_keep (t : TIA) :
    (motionChain t).colorClock = t.colorClock ∧ (motionChain t).rsync = t.rsync ∧
    (motionChain t).hmove = t.hmove ∧ (motionChain t).wsync = t.wsync ∧
    (motionChain t).hblank = t.hblank ∧ (motionChain t).hsync = t.hsync ∧
    (motionChain t).vsync = t.vsync ∧ (motionChain t).vblank = t.vblank := by
  unfold motionChain
  split_ifs <;> exact ⟨rfl, rfl, rfl, rfl, rfl, rfl, rfl, rfl⟩

theorem lineChain_facts (t : TIA) :
    ((lineChain t).2.1 = ((t.rsync.tick).2 || (t.colorClock.tick).2)) ∧
    ((lineChain t).2.1 = true →
      (lineChain t).1.colorClock.count = 0 ∧ (lineChain t).1.hblank = true ∧
      (lineChain t).1.hmove = t.hmove.reset ∧ (lineChain t).1.wsync = false ∧
      TiaEvent.videoNewScanline ∈ (lineChain t).2.2) ∧
    ((lineChain t).1.wsync = (t.wsync && !(lineChain t).2.1)) ∧
    ((lineChain t).2.1 = false → (lineChain t).1.hblank = t.hblank) := by
  unfold lineChain Rsync.tick Polycounter.tick Polycounter.reset
  dsimp only
  split_ifs with h1 h2 <;>
    refine ⟨?_, ?_, ?_, ?_⟩ <;>
    simp_all

theorem hmove_tick_inactive (h : Hmove) (hr : h.running = false) :
    h.tick = (h, 0, false) := by
  unfold Hmove.tick
  rw [if_neg (by simp [hr])]

/-- C7: on every chip step a new line begins exactly when the forced-resync
unit's tick fires or the color clock wraps naturally; in either case the
clock is reset to the line start, hblank is re-asserted, the
horizontal-move unit is reset, the WSYNC hold is cleared and a new scanline
is signalled to the video sub-system; and the step's "ready" return value
is false exactly when the WSYNC hold is still asserted at the end of the
step. -/
theorem C7_new_line_and_wsync (t : TIA) (vp : Nat) :
    ((stepVideoCycle t vp).2.2.1.frontPorch = ((t.rsync.tick).2 || (t.colorClock.tick).2)) ∧
    ((stepVideoCycle t vp).2.2.1.frontPorch = true →
      (stepVideoCycle t vp).1.colorClock.count = 0 ∧
      (stepVideoCycle t vp).1.hblank = true ∧
      (stepVideoCycle t vp).1.hmove.isActive = false ∧
      (stepVideoCycle t vp).1.wsync = false ∧
      TiaEvent.videoNewScanline ∈ (stepVideoCycle t vp).2.2.2) ∧
    ((stepVideoCycle t vp).1.wsync = (t.wsync && !(stepVideoCycle t vp).2.2.1.frontPorch)) ∧
    ((stepVideoCycle t vp).2.1 = !(stepVideoCycle t vp).1.wsync) := by
  obtain ⟨ec, er, eh, ew, em, -, -⟩ := edgeChain_keep t
  obtain ⟨mc, mr, mh, mw, -, -, -, -⟩ := motionChain_keep (edgeChain t).1
  have hrs : (motionChain (edgeChain t).1).rsync = t.rsync := mr.trans er
  have hcc : (motionChain (edgeChain t).1).colorClock = t.colorClock := mc.trans ec
  have hhm : (motionChain (edgeChain t).1).hmove = t.hmove := mh.trans eh
  have hws : (motionChain (edgeChain t).1).wsync = t.wsync := mw.trans ew
  obtain ⟨f1, f2, f3, f4⟩ := lineChain_facts (motionChain (edgeChain t).1)
  unfold stepVideoCycle
  dsimp only
  rw [hrs, hcc] at f1
  rw [hws] at f3
  refine ⟨f1, ?_, ?_, ?_⟩
  · intro hfp
    obtain ⟨g1, g2, g3, g4, g5⟩ := f2 hfp
    have hrun : (lineChain (motionChain (edgeChain t).1)).1.hmove.running = false := by
      rw [g3, hhm]
      rfl
    rw [hmove_tick_inactive _ hrun]
    refine ⟨g1, g2, by simp [Hmove.isActive, hrun], g4, ?_⟩
    simp only [List.mem_append]
    exact Or.inl (Or.inl (Or.inl (Or.inl g5)))
  · exact f3
  · rfl

/-- A TIA with a matured forced resync, used by the C7 witness. -/
def tiaResync : TIA := { rsync := { pending := true } }

theorem C7_new_line_and_wsync_witness :
    (stepVideoCycle tiaResync 7).1.colorClock.count = 0 ∧
    (stepVideoCycle tiaResync 7).1.hblank = true ∧
    (stepVideoCycle tiaResync 7).1.hmove.isActive = false ∧
    (stepVideoCycle tiaResync 7).1.wsync = false ∧
    TiaEvent.videoNewScanline ∈ (stepVideoCycle tiaResync 7).2.2.2 :=
  (C7_new_line_and_wsync tiaResync 7).2.1 (by decide)

/-- C8: on each chip step hblank is switched off exactly at clock count 16
when the horizontal-move unit is inactive and at clock count 18 when it is
active (the first if-chain leaves it alone otherwise), and the color index
sent to the television is the blanked value exactly when hblank is asserted
at the end of the step. -/
theorem C8_hblank_off_and_blanked_pixel (t : TIA) (vp : Nat) :
    ((t.colorClock.matchEnd 16 = true ∧ t.hmove.isActive = false) →
      (edgeChain t).1.hblank = false) ∧
    ((t.colorClock.matchEnd 18 = true ∧ t.hmove.isActive = true) →
      (edgeChain t).1.hblank = false) ∧
    (¬(t.colorClock.matchEnd 16 = true ∧ t.hmove.isActive = false) →
      ¬(t.colorClock.matchEnd 18 = true ∧ t.hmove.isActive = true) →
      (edgeChain t).1.hblank = t.hblank) ∧
    ((stepVideoCycle t vp).2.2.1.pixel =
      (if (stepVideoCycle t vp).1.hblank = true then none else some vp)) := by
  refine ⟨?_, ?_, ?_, ?_⟩
  · intro h
    unfold edgeChain
    rw [if_pos h]
  · intro h1
    unfold edgeChain
    split_ifs with g1
    · rfl
    · rfl
  · intro h1 h2
    unfold edgeChain
    split_ifs <;> simp_all
  · rfl

/-- TIAs at the hblank-off clock counts, used by the C8 witness. -/
def tia16 : TIA := { colorClock := { count := 16, resetPoint := 56 } }

def tia18 : TIA := { colorClock := { count := 18, resetPoint := 56 }, hmove := { running := true, count := 3 } }

def tia0 : TIA := { colorClock := { count := 0, resetPoint := 56 } }

theorem C8_hblank_off_and_blanked_pixel_witness :
    (edgeChain tia16).1.hblank = false ∧
    (edgeChain tia18).1.hblank = false ∧
    (edgeChain tia0).1.hblank = tia0.hblank ∧
    (stepVideoCycle tia0 5).2.2.1.pixel =
      (if (stepVideoCycle tia0 5).1.hblank = true then none else some 5) :=
  ⟨(C8_hblank_off_and_blanked_pixel tia16 5).1 (by decide),
   (C8_hblank_off_and_blanked_pixel tia18 5).2.1 (by decide),
   (C8_hblank_off_and_blanked_pixel tia0 5).2.2.1 (by decide) (by decide),
   (C8_hblank_off_and_blanked_pixel tia0 5).2.2.2⟩

end Tia

namespace Headless

/-- The minimal headless television (`HeadlessTV`), restricted to the three
TVState values its `RequestTVState` dispatch can return.  The request
identifiers follow the declaration order of the protocol
(`ReqFramenum`, `ReqScanline`, `ReqHorizPos`); any other value is the
unknown-request case. -/
structure HeadlessTV where
  frameNum : Int := 0
  scanline : Int := 0
  horizPos : Int := 0
deriving DecidableEq

/-- `HeadlessTV.RequestTVState`: return the requested state value, or a
recoverable UnknownTVRequest error (the television is not touched). -/
def requestTVState (tv : HeadlessTV) (request : Nat) : Except String Int :=
  match request with
  | 0 => .ok tv.frameNum
  | 1 => .ok tv.scanline
  | 2 => .ok tv.horizPos
  | _ => .error "UnknownTVRequest"

end Headless

namespace Ref

/-- C9: an unrecognized specification identifier passed to SetSpec is
returned as a recoverable error with the television unchanged and nothing
dispatched to the renderers; an unrecognized state request passed to
GetState (reference implementation) or RequestTVState (headless
implementation) is likewise returned as a recoverable error with the
television untouched. -/
theorem C9_unsupported_requests (tv : TV) (s : String) (htv : Headless.HeadlessTV) (r : Nat) :
    (upperStr s ≠ "NTSC" → upperStr s ≠ "PAL" → upperStr s ≠ "AUTO" →
      setSpec tv s = (tv, [], some ("television: unsupported spec (" ++ s ++ ")"))) ∧
    (2 < r →
      getState tv r = (0, some "television: unhandled tv state request") ∧
      Headless.requestTVState htv r = .error "UnknownTVRequest") := by
  constructor
  · intro h1 h2 h3
    unfold setSpec
    rw [if_neg h1, if_neg h2, if_neg h3]
  · intro hr
    obtain ⟨n, rfl⟩ : ∃ n, r = n + 3 := ⟨r - 3, by omega⟩
    exact ⟨rfl, rfl⟩

theorem C9_unsupported_requests_witness :
    setSpec tvW2a "SECAM" =
      (tvW2a, [], some ("television: unsupported spec (" ++ "SECAM" ++ ")")) ∧
    (getState tvW2a 5 = (0, some "television: unhandled tv state request") ∧
     Headless.requestTVState {} 5 = .error "UnknownTVRequest") :=
  ⟨(C9_unsupported_requests tvW2a "SECAM" {} 5).1 (by decide) (by decide) (by decide),
   (C9_unsupported_requests tvW2a "SECAM" {} 5).2 (by decide)⟩

/-- C10: RestoreSnapshot with a nil snapshot is a no-op — the television is
unchanged and no refresher callback is invoked. -/
theorem C10_restore_nil_noop (tv : TV) : restoreSnapshot tv none = (tv, []) := rfl

theorem heapGet_append_self (h : List (List SignalHistoryEntry)) (a : List SignalHistoryEntry) :
    heapGet (h ++ [a]) h.length = a := by
  induction h with
  | nil => rfl
  | cons x h ih => simpa [heapGet, List.getD_cons_succ] using ih

theorem heapGet_append_lt (h : List (List SignalHistoryEntry)) (a : List SignalHistoryEntry)
    (i : Nat) (hi : i < h.length) : heapGet (h ++ [a]) i = heapGet h i := by
  induction h generalizing i with
  | nil => simp at hi
  | cons x h ih =>
    cases i with
    | zero => rfl
    | succ j =>
      have : j < h.length := by simpa using hi
      simpa [heapGet, List.getD_cons_succ] using ih j this

theorem heapGet_heapSet_ne (h : List (List SignalHistoryEntry)) (i j : Nat)
    (x : List SignalHistoryEntry) (hne : i ≠ j) : heapGet (heapSet h j x) i = heapGet h i := by
  induction h generalizing i j with
  | nil => rfl
  | cons y h ih =>
    cases j with
    | zero =>
      cases i with
      | zero => exact absurd rfl hne
      | succ k => rfl
    | succ j2 =>
      cases i with
      | zero => rfl
      | succ k =>
        simpa [heapGet, heapSet, List.getD_cons_succ] using ih k j2 (by omega)

theorem heapGet_heapSet_self (h : List (List SignalHistoryEntry)) (a : Nat)
    (x : List SignalHistoryEntry) (ha : a < h.length) : heapGet (heapSet h a x) a = x := by
  induction h generalizing a with
  | nil => simp at ha
  | cons y h ih =>
    cases a with
    | zero => rfl
    | succ k =>
      have : k < h.length := by simpa using ha
      simpa [heapGet, heapSet, List.getD_cons_succ] using ih k this

theorem heapGet_oob (h : List (List SignalHistoryEntry)) (a : Nat)
    (ha : h.length ≤ a) : heapGet h a = [] := by
  unfold heapGet
  rw [List.getD_eq_default]
  omega

theorem heapSet_oob (h : List (List SignalHistoryEntry)) (a : Nat)
    (x : List SignalHistoryEntry) (ha : h.length ≤ a) : heapSet h a x = h := by
  unfold heapSet
  exact List.set_eq_of_length_le ha

theorem heapGet_heapSet_write (h : List (List SignalHistoryEntry)) (a : Nat)
    (i : Nat) (e : SignalHistoryEntry) :
    heapGet (heapSet h a ((heapGet h a).set i e)) a = (heapGet h a).set i e := by
  by_cases ha : a < h.length
  · exact heapGet_heapSet_self h a _ ha
  · rw [heapSet_oob h a _ (by omega), heapGet_oob h a (by omega)]
    rfl

theorem setSpecWith_frame (tv : TV) (sp : Spec) (au : Bool) (a : Nat) (h1 : a < tv.heap.length) :
    heapGet (setSpecWith tv sp au).1.heap a = heapGet tv.heap a ∧
    a ≠ (setSpecWith tv sp au).1.state.signalHistory.arr ∧
    a < (setSpecWith tv sp au).1.heap.length := by
  unfold setSpecWith
  dsimp only
  refine ⟨heapGet_append_lt _ _ a h1, by omega, ?_⟩
  simp only [List.length_append, List.length_singleton]
  omega

theorem setSpec_frame (tv : TV) (s : String) (a : Nat)
    (h1 : a < tv.heap.length) (h2 : a ≠ tv.state.signalHistory.arr) :
    heapGet (setSpec tv s).1.heap a = heapGet tv.heap a ∧
    a ≠ (setSpec tv s).1.state.signalHistory.arr ∧
    a < (setSpec tv s).1.heap.length := by
  unfold setSpec
  dsimp only
  split_ifs <;>
    first
      | exact setSpecWith_frame tv _ _ a h1
      | exact ⟨rfl, h2, h1⟩

theorem newFrame_frame (tv : TV) (b : Bool) (a : Nat)
    (h1 : a < tv.heap.length) (h2 : a ≠ tv.state.signalHistory.arr) :
    heapGet (newFrame tv b).1.heap a = heapGet tv.heap a ∧
    a ≠ (newFrame tv b).1.state.signalHistory.arr ∧
    a < (newFrame tv b).1.heap.length := by
  unfold newFrame
  dsimp only
  split_ifs <;>
    first
      | exact ⟨rfl, h2, h1⟩
      | (refine ?_
         have := setSpec_frame
           { reqSpecID := tv.reqSpecID, heap := tv.heap, state := { tv.state with syncedFrameNum := tv.state.syncedFrameNum + 1 } }
           "PAL" a h1 h2
         exact this)

theorem signalHoriz_frame (tv : TV) (a : Nat)
    (h1 : a < tv.heap.length) (h2 : a ≠ tv.state.signalHistory.arr) :
    heapGet (signalHoriz tv).1.heap a = heapGet tv.heap a ∧
    a ≠ (signalHoriz tv).1.state.signalHistory.arr ∧
    a < (signalHoriz tv).1.heap.length := by
  unfold signalHoriz
  dsimp only
  split_ifs
  · exact newFrame_frame
      { reqSpecID := tv.reqSpecID, heap := tv.heap,
        state := { tv.state with horizPos := 0, scanline := tv.state.scanline + 1 } }
      false a h1 h2
  · exact ⟨rfl, h2, h1⟩
  · exact ⟨rfl, h2, h1⟩

theorem signalVSync_frame (tv : TV) (σ : SignalAttributes) (a : Nat)
    (h1 : a < tv.heap.length) (h2 : a ≠ tv.state.signalHistory.arr) :
    heapGet (signalVSync tv σ).1.heap a = heapGet tv.heap a ∧
    a ≠ (signalVSync tv σ).1.state.signalHistory.arr ∧
    a < (signalVSync tv σ).1.heap.length := by
  unfold signalVSync
  dsimp only
  split_ifs
  · exact ⟨rfl, h2, h1⟩
  · exact newFrame_frame tv true a h1 h2
  · exact ⟨rfl, h2, h1⟩
  · exact ⟨rfl, h2, h1⟩

theorem signalHSync_frame (tv : TV) (σ : SignalAttributes) (a : Nat)
    (h1 : a < tv.heap.length) (h2 : a ≠ tv.state.signalHistory.arr) :
    heapGet (signalHSync tv σ).heap a = heapGet tv.heap a ∧
    a ≠ (signalHSync tv σ).state.signalHistory.arr ∧
    a < (signalHSync tv σ).heap.length := by
  unfold signalHSync
  dsimp only
  split_ifs <;> exact ⟨rfl, h2, h1⟩

theorem signalHistory_frame (tv : TV) (σ : SignalAttributes) (a : Nat)
    (h1 : a < tv.heap.length) (h2 : a ≠ tv.state.signalHistory.arr) :
    heapGet (signalHistory tv σ).heap a = heapGet tv.heap a ∧
    a ≠ (signalHistory tv σ).state.signalHistory.arr ∧
    a < (signalHistory tv σ).heap.length := by
  unfold signalHistory
  dsimp only
  split_ifs
  · refine ⟨heapGet_append_lt _ _ a h1, by dsimp only; omega, ?_⟩
    simp only [List.length_append, List.length_singleton]
    omega
  · exact ⟨heapGet_heapSet_ne tv.heap a _ _ h2, h2, by simpa [heapSet] using h1⟩

theorem signal_frame (tv : TV) (σ : SignalAttributes) (a : Nat)
    (h1 : a < tv.heap.length) (h2 : a ≠ tv.state.signalHistory.arr) :
    heapGet (signal tv σ).1.heap a = heapGet tv.heap a ∧
    a ≠ (signal tv σ).1.state.signalHistory.arr ∧
    a < (signal tv σ).1.heap.length := by
  unfold signal
  dsimp only
  obtain ⟨e1, p1, q1⟩ := signalHoriz_frame tv a h1 h2
  obtain ⟨e2, p2, q2⟩ := signalVSync_frame (signalHoriz tv).1 σ a q1 p1
  obtain ⟨e3, p3, q3⟩ := signalHSync_frame (signalVSync (signalHoriz tv).1 σ).1 σ a q2 p2
  obtain ⟨e4, p4, q4⟩ := signalHistory_frame (signalHSync (signalVSync (signalHoriz tv).1 σ).1 σ) σ a q3 p3
  exact ⟨(e4.trans e3).trans (e2.trans e1), p4, q4⟩

theorem run_frame (tv : TV) (sigs : List SignalAttributes) (a : Nat)
    (h1 : a < tv.heap.length) (h2 : a ≠ tv.state.signalHistory.arr) :
    heapGet (run tv sigs).heap a = heapGet tv.heap a := by
  induction sigs generalizing tv with
  | nil => rfl
  | cons σ rest ih =>
    obtain ⟨e, p, q⟩ := signal_frame tv σ a h1 h2
    exact (ih (signal tv σ).1 q p).trans e

/-- The scalar part of the state: the signal-history slice normalised to a
canonical array id, keeping its logical length. -/
def coreOf (s : State) : State :=
  { s with signalHistory := { arr := 0, len := s.signalHistory.len } }

/-- The contents of the live signal-history buffer. -/
def bufOf (tv : TV) : List SignalHistoryEntry :=
  heapGet tv.heap tv.state.signalHistory.arr

/-- Observational equivalence of two televisions: same state up to the
identity of the history array, and equal history-buffer contents. -/
def Obs (t1 t2 : TV) : Prop :=
  (∃ A, t2.state = { t1.state with
    signalHistory := { arr := A, len := t1.state.signalHistory.len } }) ∧
  bufOf t2 = bufOf t1

def newFrameSwitchState (s : State) (b : Bool) (heapLen : Nat) : State :=
  { s with spec := SpecPAL, auto := false, top := SpecPAL.scanlineTop, bottom := SpecPAL.scanlineBottom, signalHistory := { arr := heapLen, len := (HorizClksScanline * (SpecPAL.scanlineBottom - SpecPAL.scanlineTop)).toNat }, frameNum := s.frameNum + 1, scanline := 0, syncedFrame := b, signalHistoryIdx := 0 }

def newFramePlainState (s : State) (b : Bool) : State :=
  { s with syncedFrameNum := (if s.syncedFrame = true then s.syncedFrameNum + 1 else s.syncedFrameNum), frameNum := s.frameNum + 1, scanline := 0, syncedFrame := b, signalHistoryIdx := 0 }

theorem newFrame_eq (tv : TV) (b : Bool) :
    newFrame tv b =
      (if switchCond tv then
        ({ reqSpecID := tv.reqSpecID, heap := tv.heap ++ [List.replicate (HorizClksScanline * (SpecPAL.scanlineBottom - SpecPAL.scanlineTop)).toNat {}], state := newFrameSwitchState tv.state b tv.heap.length },
         [Event.resize SpecPAL.id SpecPAL.scanlineTop (SpecPAL.scanlineBottom - SpecPAL.scanlineTop),
          Event.newFrame (tv.state.frameNum + 1) (decide (stabilityThreshold ≤ tv.state.syncedFrameNum))])
      else
        ({ reqSpecID := tv.reqSpecID, heap := tv.heap, state := newFramePlainState tv.state b },
         [Event.newFrame (tv.state.frameNum + 1)
           (decide (stabilityThreshold ≤ (if tv.state.syncedFrame = true then tv.state.syncedFrameNum + 1 else tv.state.syncedFrameNum)))])) := by
  by_cases hc : switchCond tv
  · rw [if_pos hc]
    obtain ⟨c1, c2, c3, c4, c5, c6⟩ := hc
    unfold newFrame
    dsimp only
    split_ifs with h1 h2 h3 h4 <;>
      first
        | (rw [setSpec_pal]
           unfold setSpecWith newFrameSwitchState isStable
           dsimp only
           rfl)
        | (exfalso; simp_all [SpecNTSC])
  · rw [if_neg hc]
    unfold newFrame
    dsimp only
    split_ifs with h1 h2 h3 h4 <;>
      unfold isStable newFramePlainState <;>
      dsimp only <;>
      first
        | (rw [if_pos h1]; rfl)
        | (rw [if_neg h1]; rfl)
        | (rw [if_pos h1]; done)
        | (rw [if_neg h1]; done)
        | (exfalso; simp_all [switchCond, SpecNTSC]; done)

theorem setSpecWith_obs (t1 t2 : TV) (sp : Spec) (au : Bool) (h : Obs t1 t2) :
    Obs (setSpecWith t1 sp au).1 (setSpecWith t2 sp au).1 ∧
    (setSpecWith t1 sp au).2 = (setSpecWith t2 sp au).2 := by
  obtain ⟨⟨A, hs⟩, hb⟩ := h
  obtain ⟨req2, heap2, st2⟩ := t2
  dsimp only at hs hb
  subst hs
  unfold setSpecWith
  dsimp only
  refine ⟨⟨⟨heap2.length, rfl⟩, ?_⟩, rfl⟩
  unfold bufOf
  dsimp only
  rw [heapGet_append_self, heapGet_append_self]

theorem setSpec_obs (t1 t2 : TV) (s : String) (h : Obs t1 t2) :
    Obs (setSpec t1 s).1 (setSpec t2 s).1 ∧
    (setSpec t1 s).2.1 = (setSpec t2 s).2.1 ∧ (setSpec t1 s).2.2 = (setSpec t2 s).2.2 := by
  unfold setSpec
  dsimp only
  split_ifs <;>
    first
      | (obtain ⟨ho, he⟩ := setSpecWith_obs t1 t2 _ _ h
         exact ⟨ho, he, rfl⟩)
      | exact ⟨h, rfl, rfl⟩

theorem newFrame_obs (t1 t2 : TV) (b : Bool) (h : Obs t1 t2) :
    Obs (newFrame t1 b).1 (newFrame t2 b).1 ∧ (newFrame t1 b).2 = (newFrame t2 b).2 := by
  obtain ⟨⟨A, hs⟩, hb⟩ := h
  obtain ⟨req2, heap2, st2⟩ := t2
  dsimp only at hs hb
  subst hs
  have hcond : switchCond { reqSpecID := req2, heap := heap2, state := { t1.state with signalHistory := { arr := A, len := t1.state.signalHistory.len } } } ↔ switchCond t1 := Iff.rfl
  rw [newFrame_eq, newFrame_eq]
  by_cases hc : switchCond t1
  · rw [if_pos hc, if_pos (hcond.mpr hc)]
    dsimp only
    refine ⟨⟨⟨heap2.length, ?_⟩, ?_⟩, rfl⟩
    · unfold newFrameSwitchState
      dsimp only
    · unfold bufOf newFrameSwitchState
      dsimp only
      rw [heapGet_append_self, heapGet_append_self]
  · rw [if_neg hc, if_neg (fun hx => hc (hcond.mp hx))]
    dsimp only
    refine ⟨⟨⟨A, ?_⟩, ?_⟩, rfl⟩
    · unfold newFramePlainState
      dsimp only
    · unfold bufOf newFramePlainState
      dsimp only
      exact hb

theorem signalHoriz_obs (t1 t2 : TV) (h : Obs t1 t2) :
    Obs (signalHoriz t1).1 (signalHoriz t2).1 ∧ (signalHoriz t1).2 = (signalHoriz t2).2 := by
  obtain ⟨⟨A, hs⟩, hb⟩ := h
  obtain ⟨req2, heap2, st2⟩ := t2
  dsimp only at hs hb
  subst hs
  unfold signalHoriz
  dsimp only
  split_ifs with h1 h2
  · exact newFrame_obs _ _ false ⟨⟨A, rfl⟩, hb⟩
  · exact ⟨⟨⟨A, rfl⟩, hb⟩, rfl⟩
  · exact ⟨⟨⟨A, rfl⟩, hb⟩, rfl⟩

theorem signalVSync_obs (t1 t2 : TV) (σ : SignalAttributes) (h : Obs t1 t2) :
    Obs (signalVSync t1 σ).1 (signalVSync t2 σ).1 ∧
    (signalVSync t1 σ).2 = (signalVSync t2 σ).2 := by
  obtain ⟨⟨A, hs⟩, hb⟩ := h
  obtain ⟨req2, heap2, st2⟩ := t2
  dsimp only at hs hb
  subst hs
  unfold signalVSync
  dsimp only
  split_ifs
  · exact ⟨⟨⟨A, rfl⟩, hb⟩, rfl⟩
  · exact newFrame_obs _ _ true ⟨⟨A, rfl⟩, hb⟩
  · exact ⟨⟨⟨A, rfl⟩, hb⟩, rfl⟩
  · exact ⟨⟨⟨A, rfl⟩, hb⟩, rfl⟩

theorem signalHSync_obs (t1 t2 : TV) (σ : SignalAttributes) (h : Obs t1 t2) :
    Obs (signalHSync t1 σ) (signalHSync t2 σ) := by
  obtain ⟨⟨A, hs⟩, hb⟩ := h
  obtain ⟨req2, heap2, st2⟩ := t2
  dsimp only at hs hb
  subst hs
  unfold signalHSync
  dsimp only
  split_ifs <;> exact ⟨⟨A, rfl⟩, hb⟩

theorem signalRenderEv_obs (t1 t2 : TV) (σ : SignalAttributes) (h : Obs t1 t2) :
    signalRenderEv t1 σ = signalRenderEv t2 σ := by
  obtain ⟨⟨A, hs⟩, hb⟩ := h
  obtain ⟨req2, heap2, st2⟩ := t2
  dsimp only at hs
  subst hs
  rfl

theorem signalHistory_obs (t1 t2 : TV) (σ : SignalAttributes) (h : Obs t1 t2) :
    Obs (signalHistory t1 σ) (signalHistory t2 σ) := by
  obtain ⟨⟨A, hs⟩, hb⟩ := h
  obtain ⟨req2, heap2, st2⟩ := t2
  dsimp only at hs hb
  subst hs
  unfold signalHistory
  dsimp only
  split_ifs with h1
  · refine ⟨⟨heap2.length, rfl⟩, ?_⟩
    unfold bufOf
    dsimp only
    rw [heapGet_append_self, heapGet_append_self]
    unfold bufOf at hb
    dsimp only at hb
    rw [hb]
  · refine ⟨⟨A, rfl⟩, ?_⟩
    unfold bufOf
    dsimp only
    rw [heapGet_heapSet_write, heapGet_heapSet_write]
    unfold bufOf at hb
    dsimp only at hb
    rw [hb]

theorem signal_obs (t1 t2 : TV) (σ : SignalAttributes) (h : Obs t1 t2) :
    Obs (signal t1 σ).1 (signal t2 σ).1 ∧ (signal t1 σ).2 = (signal t2 σ).2 := by
  obtain ⟨o1, e1⟩ := signalHoriz_obs t1 t2 h
  obtain ⟨o2, e2⟩ := signalVSync_obs (signalHoriz t1).1 (signalHoriz t2).1 σ o1
  have o3 := signalHSync_obs (signalVSync (signalHoriz t1).1 σ).1 (signalVSync (signalHoriz t2).1 σ).1 σ o2
  have e3 := signalRenderEv_obs (signalHSync (signalVSync (signalHoriz t1).1 σ).1 σ)
    (signalHSync (signalVSync (signalHoriz t2).1 σ).1 σ) σ o3
  have o4 := signalHistory_obs (signalHSync (signalVSync (signalHoriz t1).1 σ).1 σ)
    (signalHSync (signalVSync (signalHoriz t2).1 σ).1 σ) σ o3
  unfold signal
  dsimp only
  exact ⟨o4, by rw [e1, e2, e3]⟩

theorem run_obs (t1 t2 : TV) (sigs : List SignalAttributes) (h : Obs t1 t2) :
    Obs (run t1 sigs) (run t2 sigs) := by
  induction sigs generalizing t1 t2 with
  | nil => exact h
  | cons σ rest ih => exact ih _ _ (signal_obs t1 t2 σ h).1

theorem runTrace_obs (t1 t2 : TV) (sigs : List SignalAttributes) (h : Obs t1 t2) :
    (runTrace t1 sigs).2 = (runTrace t2 sigs).2 := by
  have main : ∀ (sigs : List SignalAttributes) (t1 t2 : TV), Obs t1 t2 → ∀ (acc : List Event),
      (sigs.foldl (fun p σ => ((signal p.1 σ).1, p.2 ++ (signal p.1 σ).2)) (t1, acc)).2 =
      (sigs.foldl (fun p σ => ((signal p.1 σ).1, p.2 ++ (signal p.1 σ).2)) (t2, acc)).2 := by
    intro sigs
    induction sigs with
    | nil =>
      intro t1 t2 h acc
      rfl
    | cons σ rest ih =>
      intro t1 t2 h acc
      obtain ⟨o, e⟩ := signal_obs t1 t2 σ h
      simp only [List.foldl_cons]
      rw [e]
      exact ih _ _ o _
  exact main sigs t1 t2 h []

theorem obs_coreOf (t1 t2 : TV) (h : Obs t1 t2) : coreOf t2.state = coreOf t1.state := by
  obtain ⟨⟨A, hs⟩, -⟩ := h
  rw [hs]
  unfold coreOf
  dsimp only

/-- C5: Snapshot returns a deep copy of the television state whose signal
history is backed by a fresh array (never the live one) holding a copy of
the live contents; stepping the live television any number of further
signals never alters the snapshot's buffer; and restoring the snapshot
immediately after taking it reproduces behavior identical to not
snapshotting at all — running any further signal sequence from either path
yields the same state (up to the identity of the backing array), the same
history-buffer contents and the same collaborator call sequence (the
restore-time refresh replay aside). -/
theorem C5_snapshot_restore_roundtrip (tv : TV)
    (hwf : tv.state.signalHistory.arr < tv.heap.length) :
    (snapshot tv).1.signalHistory.arr ≠ (snapshot tv).2.state.signalHistory.arr ∧
    heapGet (snapshot tv).2.heap (snapshot tv).1.signalHistory.arr = bufOf tv ∧
    (∀ sigs, heapGet (run (snapshot tv).2 sigs).heap (snapshot tv).1.signalHistory.arr =
      heapGet (snapshot tv).2.heap (snapshot tv).1.signalHistory.arr) ∧
    (∀ sigs,
      coreOf (run (restoreSnapshot (snapshot tv).2 (some (snapshot tv).1)).1 sigs).state =
        coreOf (run tv sigs).state ∧
      bufOf (run (restoreSnapshot (snapshot tv).2 (some (snapshot tv).1)).1 sigs) =
        bufOf (run tv sigs) ∧
      (runTrace (restoreSnapshot (snapshot tv).2 (some (snapshot tv).1)).1 sigs).2 =
        (runTrace tv sigs).2) := by
  have hobs : Obs tv (restoreSnapshot (snapshot tv).2 (some (snapshot tv).1)).1 := by
    unfold restoreSnapshot snapshot
    dsimp only
    refine ⟨⟨tv.heap.length, rfl⟩, ?_⟩
    unfold bufOf
    dsimp only
    rw [heapGet_append_self]
  refine ⟨?_, ?_, ?_, ?_⟩
  · unfold snapshot
    dsimp only
    omega
  · unfold snapshot bufOf
    dsimp only
    rw [heapGet_append_self]
  · intro sigs
    refine run_frame _ sigs _ ?_ ?_
    · unfold snapshot
      dsimp only
      simp only [List.length_append, List.length_singleton]
      omega
    · unfold snapshot
      dsimp only
      omega
  · intro sigs
    have ho := run_obs tv _ sigs hobs
    exact ⟨obs_coreOf _ _ ho, ho.2, (runTrace_obs tv _ sigs hobs).symm⟩

theorem C5_snapshot_restore_roundtrip_witness :
    (snapshot tvW2a).1.signalHistory.arr ≠ (snapshot tvW2a).2.state.signalHistory.arr ∧
    heapGet (snapshot tvW2a).2.heap (snapshot tvW2a).1.signalHistory.arr = bufOf tvW2a ∧
    heapGet (run (snapshot tvW2a).2 [sigPlain]).heap (snapshot tvW2a).1.signalHistory.arr =
      heapGet (snapshot tvW2a).2.heap (snapshot tvW2a).1.signalHistory.arr ∧
    (coreOf (run (restoreSnapshot (snapshot tvW2a).2 (some (snapshot tvW2a).1)).1 [sigPlain]).state =
      coreOf (run tvW2a [sigPlain]).state ∧
     bufOf (run (restoreSnapshot (snapshot tvW2a).2 (some (snapshot tvW2a).1)).1 [sigPlain]) =
      bufOf (run tvW2a [sigPlain]) ∧
     (runTrace (restoreSnapshot (snapshot tvW2a).2 (some (snapshot tvW2a).1)).1 [sigPlain]).2 =
      (runTrace tvW2a [sigPlain]).2) :=
  ⟨(C5_snapshot_restore_roundtrip tvW2a (by decide)).1,
   (C5_snapshot_restore_roundtrip tvW2a (by decide)).2.1,
   (C5_snapshot_restore_roundtrip tvW2a (by decide)).2.2.1 [sigPlain],
   (C5_snapshot_restore_roundtrip tvW2a (by decide)).2.2.2 [sigPlain]⟩
